import Mathlib

/-!
mysqldump: a shallow embedding of the dump pipeline.

The Go package under study writes a textual SQL dump of a database.  This file
embeds

* the record types `table` and `dump`, and the three template constants
  `tmpl`, `tmplSQLValue`, `complete` (dump.go);
* the fragment of Go's `text/template` that these constants use (text, field
  actions, `range`, `if`, `end`), as a lexer, a parser and an executor;
* the query executor `*sql.DB` as a deterministic responder whose answer may
  depend on every query issued before, together with the query log;
* the destination file system as a map from paths to entries, together with
  the errors `os.Open`, `Stat` and `os.Create` meet on a path;
* the functions `getTables`, `getServerVersion`, `createTableSQL`,
  `createTableValues`, `createTable`, `genTemplate`, `Dump` (dump.go) and
  `exists`, `isFile`, `isDir` (mysqldump.go).

Functions that return `(value, error)` in Go return a pair whose second
component is `Option Error` here; `none` is Go's `nil` error.
-/

namespace Mysqldump

/-! ## Records of dump.go -/

/-- Go errors.  Each constructor stands for one way an error value is made
in the package or handed to it. -/
inductive Error where
  /-- An error of the driver, the server or the operating system, passed on
  as it is. -/
  | external (msg : String)
  /-- The error `sql.ErrNoRows` of `Row.Scan` on an empty result. -/
  | noRows
  /-- The error of `Rows.Scan` when a row of `columns` columns is scanned into
  `dests` destinations. -/
  | scanArity (columns dests : Nat)
  /-- `fmt.Errorf("Dump '" + name + "' already exists.")` -/
  | dumpExists (name : String)
  /-- `fmt.Errorf("%+v %+v", err, err2)` -/
  | bothProbes (err err2 : Error)
  /-- `fmt.Errorf("returned table is not the same as requested table")` -/
  | tableMismatch
  /-- `fmt.Errorf("No columns in table " + name + ".")` -/
  | noColumns (name : String)
  /-- `fmt.Errorf("Invalid directory")` -/
  | invalidDirectory
  /-- An error of `text/template` (parsing or execution). -/
  | template (msg : String)
  deriving DecidableEq, Repr

/-- The `table` struct of dump.go. -/
structure table where
  Name : String
  SQL : String
  Values : String
  deriving DecidableEq, Repr

/-- The `dump` struct of dump.go. -/
structure dump where
  DumpVersion : String
  ServerVersion : String
  Tables : List table
  CompleteTime : String
  WithSQLValue : Bool
  deriving DecidableEq, Repr

/-- The constant `version`. -/
def version : String := "v0.0.1"

/-- The constant `tmpl`: banner and the per-table schema block (the `range`
is left open; `complete` closes it). -/
def tmpl : String :=
  "-- Go SQL Dump \x7b\x7b .DumpVersion \x7d\x7d\n--\n-- ------------------------------------------------------\n-- Server version  \x7b\x7b .ServerVersion  \x7d\x7d\n\n\x7b\x7b range .Tables \x7d\x7d\n--\n-- Table structure for table \x7b\x7b .Name  \x7d\x7d\n--\nDROP TABLE IF EXISTS \x7b\x7b .Name \x7d\x7d;\n\x7b\x7b .SQL \x7d\x7d;\n"

/-- The constant `tmplSQLValue`: the per-table lock, insert, unlock block. -/
def tmplSQLValue : String :=
  "\n--\n-- Dumping data for table \x7b\x7b .Name \x7d\x7d\n--\nLOCK TABLES \x7b\x7b .Name \x7d\x7d WRITE;\n\x7b\x7b if .Values \x7d\x7d\nINSERT INTO \x7b\x7b .Name \x7d\x7d VALUES \x7b\x7b .Values \x7d\x7d;\n\x7b\x7b end \x7d\x7d\nUNLOCK TABLES;\n"

/-- The constant `complete`: end of the `range` and the completion footer. -/
def complete : String :=
  "\t\n\x7b\x7b end \x7d\x7d\n-- Dump completed on \x7b\x7b .CompleteTime \x7d\x7d\n"

/-! ## The fragment of text/template used by the constants -/

/-- Lexical items: literal text, or the raw inside of one action. -/
inductive Token where
  | text (s : List Char)
  | action (s : List Char)
  deriving DecidableEq, Repr

/-- Splits a template at the delimiters.  `inAction` tells whether the
characters collected in `acc` (in reverse) belong to an action.  An action
that is never closed is a lexing error. -/
def lexFrom : Bool → List Char → List Char → Option (List Token)
  | inAction, acc, [] =>
    if inAction then none else some (if acc.isEmpty then [] else [Token.text acc.reverse])
  | false, acc, '\x7b' :: '\x7b' :: rest =>
    (lexFrom true [] rest).map
      (fun ts => if acc.isEmpty then ts else Token.text acc.reverse :: ts)
  | true, acc, '\x7d' :: '\x7d' :: rest =>
    (lexFrom false [] rest).map (fun ts => Token.action acc.reverse :: ts)
  | inAction, acc, c :: rest => lexFrom inAction (c :: acc) rest

/-- The tokens of a template. -/
def lex (s : String) : Option (List Token) := lexFrom false [] s.toList

/-- The actions of the fragment, after trimming blanks. -/
inductive Action where
  | field (name : String)
  | range (name : String)
  | cond (name : String)
  | close
  deriving DecidableEq, Repr

/-- Characters allowed in a field name. -/
def isIdentChar (c : Char) : Bool := c.isAlphanum || c == '_'

/-- Reads `.Name` as the field name `Name`. -/
def fieldName (w : List Char) : Option String :=
  match w with
  | '.' :: n => if !n.isEmpty && n.all isIdentChar then some (String.mk n) else none
  | _ => none

/-- The blank-separated words of an action. -/
def actionWords (s : List Char) : List (List Char) :=
  (s.splitOn ' ').filter (fun w => !w.isEmpty)

/-- Classifies an action; anything outside the fragment is rejected. -/
def classify (s : List Char) : Option Action :=
  match actionWords s with
  | [w] => if w = "end".toList then some Action.close else (fieldName w).map Action.field
  | [k, w] =>
    if k = "range".toList then (fieldName w).map Action.range
    else if k = "if".toList then (fieldName w).map Action.cond
    else none
  | _ => none

/-- A parsed template: a sequence of nodes, `range` and `cond` carrying
their body. -/
inductive Tmpl where
  | done
  | text (s : String) (rest : Tmpl)
  | field (name : String) (rest : Tmpl)
  | range (name : String) (body : Tmpl) (rest : Tmpl)
  | cond (name : String) (body : Tmpl) (rest : Tmpl)
  deriving DecidableEq, Repr

/-- Parses a token sequence up to the `end` that closes the current block
(`depth > 0`) or up to the end of input (`depth = 0`); returns the nodes and
the tokens after the closing `end`. -/
def parseSeq : Nat → Nat → List Token → Option (Tmpl × List Token)
  | 0, _, _ => none
  | _ + 1, depth, [] => if depth = 0 then some (Tmpl.done, []) else none
  | fuel + 1, depth, Token.text s :: ts =>
    (parseSeq fuel depth ts).map (fun r => (Tmpl.text (String.mk s) r.1, r.2))
  | fuel + 1, depth, Token.action a :: ts =>
    match classify a with
    | none => none
    | some Action.close => if depth = 0 then none else some (Tmpl.done, ts)
    | some (Action.field n) =>
      (parseSeq fuel depth ts).map (fun r => (Tmpl.field n r.1, r.2))
    | some (Action.range n) =>
      (parseSeq fuel (depth + 1) ts).bind (fun b =>
        (parseSeq fuel depth b.2).map (fun r => (Tmpl.range n b.1 r.1, r.2)))
    | some (Action.cond n) =>
      (parseSeq fuel (depth + 1) ts).bind (fun b =>
        (parseSeq fuel depth b.2).map (fun r => (Tmpl.cond n b.1 r.1, r.2)))

/-- Counterpart of `template.New(..).Parse`: the parsed template, or an error. -/
def parse (s : String) : Except Error Tmpl :=
  match lex s with
  | none => Except.error (Error.template "unclosed action")
  | some ts =>
    match parseSeq (ts.length + 1) 0 ts with
    | some (t, _) => Except.ok t
    | none => Except.error (Error.template "unexpected action or missing end")

/-- The value the cursor of the template (Go's dot) stands for: the whole
document, or one table inside a `range`. -/
inductive Dot where
  | ofDump (d : dump)
  | ofTable (t : table)
  deriving DecidableEq, Repr

/-- Values of the fields of `dump` and `table`. -/
inductive Val where
  | str (s : String)
  | flag (b : Bool)
  | tables (ts : List table)
  deriving DecidableEq, Repr

/-- Field lookup by name, as reflection does it on the two structs. -/
def Dot.field : Dot → String → Option Val
  | Dot.ofDump d, n =>
    if n = "DumpVersion" then some (Val.str d.DumpVersion)
    else if n = "ServerVersion" then some (Val.str d.ServerVersion)
    else if n = "Tables" then some (Val.tables d.Tables)
    else if n = "CompleteTime" then some (Val.str d.CompleteTime)
    else if n = "WithSQLValue" then some (Val.flag d.WithSQLValue)
    else none
  | Dot.ofTable t, n =>
    if n = "Name" then some (Val.str t.Name)
    else if n = "SQL" then some (Val.str t.SQL)
    else if n = "Values" then some (Val.str t.Values)
    else none

/-- Text printed for a value by a field action; a string is printed as it
is, without any escaping.  Printing a slice of table pointers is outside
the fragment. -/
def Val.print : Val → Option String
  | Val.str s => some s
  | Val.flag b => some (if b then "true" else "false")
  | Val.tables _ => none

/-- Truth of a value in `if`: non-empty string, `true`, non-empty slice. -/
def Val.truth : Val → Bool
  | Val.str s => !s.isEmpty
  | Val.flag b => b
  | Val.tables ts => !ts.isEmpty

/-- Runs `body` on each table in order, stopping at the first error; the
text written so far is kept. -/
def execEach (body : table → String × Option Error) : List table → String × Option Error
  | [] => ("", none)
  | t :: ts =>
    match body t with
    | (out, some e) => (out, some e)
    | (out, none) => let r := execEach body ts; (out ++ r.1, r.2)

/-- Executes a parsed template at a cursor: the text written, and the error
that stopped the execution if there was one. -/
def exec : Tmpl → Dot → String × Option Error
  | Tmpl.done, _ => ("", none)
  | Tmpl.text s rest, dot => let r := exec rest dot; (s ++ r.1, r.2)
  | Tmpl.field n rest, dot =>
    match (dot.field n).bind Val.print with
    | none => ("", some (Error.template ("can not evaluate field " ++ n)))
    | some s => let r := exec rest dot; (s ++ r.1, r.2)
  | Tmpl.range n body rest, dot =>
    match dot.field n with
    | some (Val.tables ts) =>
      match execEach (fun t => exec body (Dot.ofTable t)) ts with
      | (out, some e) => (out, some e)
      | (out, none) => let r := exec rest dot; (out ++ r.1, r.2)
    | _ => ("", some (Error.template ("range can not iterate over " ++ n)))
  | Tmpl.cond n body rest, dot =>
    match dot.field n with
    | none => ("", some (Error.template ("can not evaluate field " ++ n)))
    | some v =>
      if v.truth then
        match exec body dot with
        | (out, some e) => (out, some e)
        | (out, none) => let r := exec rest dot; (out ++ r.1, r.2)
      else exec rest dot

/-! ## The query executor -/

/-- A cell of a result row as the driver hands it over: `none` is SQL NULL,
`some s` a value whose text is `s`. -/
abbrev Cell := Option String

/-- The result set behind `*sql.Rows`: the column names, the rows delivered
by `Next` in order, and the value of `rows.Err()` once `Next` has returned
false. -/
structure Rows where
  columns : List String
  rows : List (List Cell)
  err : Option Error
  deriving DecidableEq, Repr

/-- The executor `*sql.DB`: the answer to a query, given the queries issued
before it (oldest first).  Two issues of the same query may be answered
differently. -/
structure DB where
  respond : List String → String → Except Error Rows

/-- Counterpart of `db.Query`: the answer, and the log extended by the query. -/
def DB.Query (db : DB) (log : List String) (q : String) :
    Except Error Rows × List String :=
  (db.respond log q, log ++ [q])

/-- The struct `sql.NullString`. -/
structure NullString where
  String : String
  Valid : Bool
  deriving DecidableEq, Repr

/-- The zero value of `sql.NullString`, as `var x sql.NullString` declares it. -/
def NullString.zero : NullString := ⟨"", false⟩

/-- Counterpart of `(*NullString).Scan`: NULL gives the invalid empty string,
any other value its text. -/
def NullString.Scan : Cell → NullString
  | none => ⟨"", false⟩
  | some s => ⟨s, true⟩

/-- Scanning into a `**sql.NullString` destination (the element type of `data`
in `createTableValues`): NULL sets the pointer to nil, any other value
allocates a `NullString` and scans into it. -/
def scanPtr : Cell → Option NullString
  | none => none
  | some s => some (NullString.Scan (some s))

/-- Counterpart of `Rows.Scan` with `dests` destinations on the current row:
the arity is checked before anything is assigned; on success the cells are
handed to the destinations in column order. -/
def Rows.Scan (row : List Cell) (dests : Nat) : Except Error (List Cell) :=
  if row.length ≠ dests then Except.error (Error.scanArity row.length dests)
  else Except.ok row

/-- Counterpart of `db.QueryRow(q).Scan(..)` with `dests` destinations, given
the answer to the query: a failed query gives its error, an empty result
`rows.Err()` or `sql.ErrNoRows`, otherwise the first row is scanned. -/
def Row.Scan (r : Except Error Rows) (dests : Nat) : Except Error (List Cell) :=
  match r with
  | Except.error e => Except.error e
  | Except.ok rs =>
    match rs.rows with
    | [] =>
      match rs.err with
      | some e => Except.error e
      | none => Except.error Error.noRows
    | row :: _ => Rows.Scan row dests

/-- The `i`-th destination after a successful scan into `NullString`s. -/
def dest (cells : List Cell) (i : Nat) : NullString :=
  NullString.Scan (cells.getD i none)

/-- Counterpart of `strings.Join`. -/
def stringsJoin (elems : List String) (sep : String) : String :=
  match elems with
  | [] => ""
  | e :: rest => rest.foldl (fun b s => b ++ sep ++ s) e

/-! ## Functions of dump.go that talk to the executor -/

/-- The loop `for rows.Next()` of `getTables`. -/
def getTablesLoop : List (List Cell) → Option Error → List String → List String × Option Error
  | [], err, tables => (tables, err)
  | row :: rest, err, tables =>
    match Rows.Scan row 1 with
    | Except.error e => (tables, some e)
    | Except.ok cells => getTablesLoop rest err (tables ++ [(dest cells 0).String])

/-- Counterpart of `getTables`. -/
def getTables (db : DB) (log : List String) : (List String × Option Error) × List String :=
  let r := db.Query log "SHOW TABLES"
  match r.1 with
  | Except.error e => (([], some e), r.2)
  | Except.ok rows => (getTablesLoop rows.rows rows.err [], r.2)

/-- Counterpart of `getServerVersion`. -/
def getServerVersion (db : DB) (log : List String) : (String × Option Error) × List String :=
  let r := db.Query log "SELECT version()"
  match Row.Scan r.1 1 with
  | Except.error e => (("", some e), r.2)
  | Except.ok cells => (((dest cells 0).String, none), r.2)

/-- Counterpart of `createTableSQL`.  Both probes are always issued; a probe
that fails leaves `tableName` and `tableSql` as they were. -/
def createTableSQL (db : DB) (log : List String) (name : String) :
    (String × Option Error) × List String :=
  let r1 := db.Query log ("SHOW CREATE TABLE " ++ name)
  let err := Row.Scan r1.1 2
  let v1 : NullString × NullString :=
    match err with
    | Except.ok cells => (dest cells 0, dest cells 1)
    | Except.error _ => (NullString.zero, NullString.zero)
  let r2 := db.Query r1.2 ("SHOW CREATE TABLE " ++ name)
  let err2 := Row.Scan r2.1 4
  let v2 : NullString × NullString :=
    match err2 with
    | Except.ok cells => (dest cells 0, dest cells 1)
    | Except.error _ => v1
  match err, err2 with
  | Except.error e, Except.error e2 => (("", some (Error.bothProbes e e2)), r2.2)
  | _, _ =>
    if v2.1.String ≠ name then (("", some Error.tableMismatch), r2.2)
    else ((v2.2.String, none), r2.2)

/-- The literal written for one scanned cell (the body of the inner loop of
`createTableValues`). -/
def literal (value : Option NullString) : String :=
  match value with
  | some v => if v.Valid then "'" ++ v.String ++ "'" else "null"
  | none => "null"

/-- The loop `for rows.Next()` of `createTableValues`; `n` is `len(columns)`. -/
def createTableValuesLoop (n : Nat) :
    List (List Cell) → List String → Except Error (List String)
  | [], dataText => Except.ok dataText
  | row :: rest, dataText =>
    match Rows.Scan row n with
    | Except.error e => Except.error e
    | Except.ok cells =>
      let data := cells.map scanPtr
      let dataStrings := data.map literal
      createTableValuesLoop n rest (dataText ++ ["(" ++ stringsJoin dataStrings "," ++ ")"])

/-- Counterpart of `createTableValues`. -/
def createTableValues (db : DB) (log : List String) (name : String) :
    (String × Option Error) × List String :=
  let r := db.Query log ("SELECT * FROM " ++ name)
  match r.1 with
  | Except.error e => (("", some e), r.2)
  | Except.ok rows =>
    if rows.columns.length = 0 then (("", some (Error.noColumns name)), r.2)
    else
      match createTableValuesLoop rows.columns.length rows.rows [] with
      | Except.error e => (("", some e), r.2)
      | Except.ok dataText => ((stringsJoin dataText ",", rows.err), r.2)

/-- Counterpart of `createTable`; the record is `none` where Go returns a nil
pointer. -/
def createTable (db : DB) (log : List String) (name : String) (withValue : Bool) :
    (Option table × Option Error) × List String :=
  let t : table := ⟨name, "", ""⟩
  let s := createTableSQL db log name
  match s.1.2 with
  | some err => ((none, some err), s.2)
  | none =>
    let t := { t with SQL := s.1.1 }
    if withValue then
      let v := createTableValues db s.2 name
      match v.1.2 with
      | some err => ((none, some err), v.2)
      | none => ((some { t with Values := v.1.1 }, none), v.2)
    else ((some t, none), s.2)

/-! ## Clock, paths and the destination file system -/

/-- An instant returned by `time.Now()`, known through its two renderings:
`t.Format(layout)` and `t.String()`. -/
structure Time where
  Format : String → String
  String : String

/-- An entry of the file system: a regular file with its content, or a
directory. -/
inductive Entry where
  | file (content : String)
  | dir
  deriving DecidableEq, Repr

/-- The state outside the package: the entries of the file system, the error
`os.Create` meets on a path if any (missing parent, permissions), the error
`os.Open` meets on a path that has an entry if any (permission denied, a
dangling link), the error `Stat` meets on an opened path if any, the
instants the clock returns at its successive readings, the number of
readings made, and the log of the queries issued to the executor. -/
structure World where
  files : String → Option Entry
  createErr : String → Option Error
  openErr : String → Option Error
  statErr : String → Option Error
  clock : Nat → Time
  ticks : Nat
  log : List String

/-- Counterpart of `time.Now()`. -/
def timeNow (w : World) : Time × World :=
  (w.clock w.ticks, { w with ticks := w.ticks + 1 })

/-- One step of `path.Clean` on the elements kept so far (last one first). -/
def cleanStep (rooted : Bool) (kept : List String) (e : String) : List String :=
  if e = "" ∨ e = "." then kept
  else if e = ".." then
    match kept with
    | [] => if rooted then [] else [".."]
    | k :: ks => if k = ".." then ".." :: k :: ks else ks
  else e :: kept

/-- Counterpart of `path.Clean`. -/
def pathClean (p : String) : String :=
  let rooted := p.toList.head? = some '/'
  let elems := (p.toList.splitOn '/').map String.mk
  let kept := (elems.foldl (cleanStep rooted) []).reverse
  let body := "/".intercalate kept
  if rooted then "/" ++ body else if body = "" then "." else body

/-- Counterpart of `path.Join` on two elements. -/
def pathJoin (a b : String) : String :=
  if a = "" ∧ b = "" then ""
  else if a = "" then pathClean b
  else if b = "" then pathClean a
  else pathClean (a ++ "/" ++ b)

/-- Counterpart of `os.Open`: fails on a path without entry, and on a path
with an entry where the world says so; otherwise hands over the entry. -/
def osOpen (w : World) (p : String) : Except Error Entry :=
  match w.files p with
  | none => Except.error (Error.external ("open " ++ p ++ ": no such file or directory"))
  | some e =>
    match w.openErr p with
    | some err => Except.error err
    | none => Except.ok e

/-- Counterpart of `f.Stat()` on the handle `f` opened at `p`: fails where
the world says so; otherwise describes the entry. -/
def fileStat (w : World) (p : String) (f : Entry) : Except Error Entry :=
  match w.statErr p with
  | some err => Except.error err
  | none => Except.ok f

/-- Counterpart of `exists` (mysqldump.go): false when `os.Open` fails, false
when `Stat` fails, otherwise true with the description of the entry.
(`exists` is a reserved word here.) -/
def pathExists (w : World) (p : String) : Bool × Option Entry :=
  match osOpen w p with
  | Except.error _ => (false, none)
  | Except.ok f =>
    match fileStat w p f with
    | Except.error _ => (false, none)
    | Except.ok fi => (true, some fi)

/-- Counterpart of `isFile`. -/
def isFile (w : World) (p : String) : Bool :=
  match pathExists w p with
  | (true, some (Entry.file _)) => true
  | _ => false

/-- Counterpart of `isDir`. -/
def isDir (w : World) (p : String) : Bool :=
  match pathExists w p with
  | (true, some Entry.dir) => true
  | _ => false

/-- Counterpart of `os.Create`: fails where the world says so and on a
directory; otherwise the path holds an empty regular file afterwards. -/
def osCreate (w : World) (p : String) : Option Error × World :=
  match w.createErr p with
  | some e => (some e, w)
  | none =>
    match w.files p with
    | some Entry.dir => (some (Error.external ("open " ++ p ++ ": is a directory")), w)
    | _ => (none, { w with files := Function.update w.files p (some (Entry.file "")) })

/-- Writing `s` through the handle of the file created at `p`: the text is
appended to what the handle has written so far. -/
def fileWrite (w : World) (p : String) (s : String) : World :=
  match w.files p with
  | some (Entry.file c) =>
    { w with files := Function.update w.files p (some (Entry.file (c ++ s))) }
  | _ => w

/-! ## The dumper -/

/-- The struct `Dumper` of mysqldump.go. -/
structure Dumper where
  db : DB
  format : String
  dir : String
  withSQLValue : Bool

/-- Counterpart of `Register`. -/
def Register (w : World) (db : DB) (dir format : String) (withValue : Bool) :
    Option Dumper × Option Error :=
  if !isDir w dir then (none, some Error.invalidDirectory)
  else (some ⟨db, format, dir, withValue⟩, none)

/-- Counterpart of `genTemplate`. -/
def Dumper.genTemplate (d : Dumper) : String :=
  let template := tmpl ++ complete
  if d.withSQLValue then tmpl ++ tmplSQLValue ++ complete else template

/-- The loop `for _, name := range tables` of `Dump`: the table records built
so far, the error that stopped the loop if any, and the query log. -/
def buildTables (db : DB) (withValue : Bool) :
    List String → List table → List String → (List table × Option Error) × List String
  | [], acc, log => ((acc, none), log)
  | name :: rest, acc, log =>
    match createTable db log name withValue with
    | ((t, none), log1) => buildTables db withValue rest (acc ++ t.toList) log1
    | ((_, some err), log1) => ((acc, some err), log1)

/-- Counterpart of `Dump`: the path, the error (`none` on success) and the
world afterwards. -/
def Dumper.Dump (d : Dumper) (w : World) : (String × Option Error) × World :=
  let now := timeNow w
  let name := now.1.Format d.format
  let p := pathJoin d.dir (name ++ ".sql")
  let w := now.2
  if (pathExists w p).1 then ((p, some (Error.dumpExists name)), w)
  else
    match osCreate w p with
    | (some err, w) => ((p, some err), w)
    | (none, w) =>
      let sv := getServerVersion d.db w.log
      let w := { w with log := sv.2 }
      match sv.1.2 with
      | some err => ((p, some err), w)
      | none =>
        let ts := getTables d.db w.log
        let w := { w with log := ts.2 }
        match ts.1.2 with
        | some err => ((p, some err), w)
        | none =>
          let b := buildTables d.db d.withSQLValue ts.1.1 [] w.log
          let w := { w with log := b.2 }
          match b.1.2 with
          | some err => ((p, some err), w)
          | none =>
            let done := timeNow w
            let w := done.2
            let data : dump := ⟨version, sv.1.1, b.1.1, done.1.String, d.withSQLValue⟩
            match parse d.genTemplate with
            | Except.error err => ((p, some err), w)
            | Except.ok t =>
              let out := exec t (Dot.ofDump data)
              ((p, out.2), fileWrite w p out.1)

/-! ## Definitions used in the statements and proofs -/

/-- The group written for one row. -/
def group (row : List Cell) : String :=
  "(" ++ stringsJoin ((row.map scanPtr).map literal) "," ++ ")"

/-- Nodes after the `range`: the completion footer. -/
def footerTmpl : Tmpl :=
  Tmpl.text "\n-- Dump completed on " (Tmpl.field "CompleteTime" (Tmpl.text "\n" Tmpl.done))

/-- Body of the `range` in the schema-only template. -/
def schemaBody : Tmpl :=
  Tmpl.text "\n--\n-- Table structure for table " (Tmpl.field "Name"
  (Tmpl.text "\n--\nDROP TABLE IF EXISTS " (Tmpl.field "Name"
  (Tmpl.text ";\n" (Tmpl.field "SQL" (Tmpl.text ";\n\t\n" Tmpl.done))))))

/-- Nodes of the lock, insert, unlock block, followed by `rest`; `pre` is
the text in front of the comment lines. -/
def lockTmpl (pre : String) (rest : Tmpl) : Tmpl :=
  Tmpl.text (pre ++ "\n--\n-- Dumping data for table ") (Tmpl.field "Name"
  (Tmpl.text "\n--\nLOCK TABLES " (Tmpl.field "Name" (Tmpl.text " WRITE;\n"
  (Tmpl.cond "Values"
    (Tmpl.text "\nINSERT INTO " (Tmpl.field "Name" (Tmpl.text " VALUES "
      (Tmpl.field "Values" (Tmpl.text ";\n" Tmpl.done)))))
    rest)))))

/-- Body of the `range` in the template with row data. -/
def dataBody : Tmpl :=
  Tmpl.text "\n--\n-- Table structure for table " (Tmpl.field "Name"
  (Tmpl.text "\n--\nDROP TABLE IF EXISTS " (Tmpl.field "Name"
  (Tmpl.text ";\n" (Tmpl.field "SQL"
  (lockTmpl ";\n" (Tmpl.text "\nUNLOCK TABLES;\n\t\n" Tmpl.done)))))))

/-- Nodes of the banner, followed by a `range` with the given body and by
the footer. -/
def bannerTmpl (body : Tmpl) : Tmpl :=
  Tmpl.text "-- Go SQL Dump " (Tmpl.field "DumpVersion"
  (Tmpl.text "\n--\n-- ------------------------------------------------------\n-- Server version  "
  (Tmpl.field "ServerVersion" (Tmpl.text "\n\n" (Tmpl.range "Tables" body footerTmpl)))))

/-- Concatenation of a list of strings, in order. -/
def concatAll : List String → String
  | [] => ""
  | s :: rest => s ++ concatAll rest

/-- Text of the banner. -/
def bannerText (dumpVersion serverVersion : String) : String :=
  "-- Go SQL Dump " ++ dumpVersion
    ++ "\n--\n-- ------------------------------------------------------\n-- Server version  "
    ++ serverVersion ++ "\n\n"

/-- Text of the schema block of one table. -/
def schemaText (t : table) : String :=
  "\n--\n-- Table structure for table " ++ t.Name ++ "\n--\nDROP TABLE IF EXISTS " ++ t.Name
    ++ ";\n" ++ t.SQL ++ ";\n"

/-- Text between the `LOCK TABLES` line and the `UNLOCK TABLES` line, without
the line break that follows the former and the one in front of the latter. -/
def insertText (t : table) : String :=
  if t.Values = "" then ""
  else "\nINSERT INTO " ++ t.Name ++ " VALUES " ++ t.Values ++ ";\n"

/-- Text of the data block of one table. -/
def lockText (t : table) : String :=
  "\n--\n-- Dumping data for table " ++ t.Name ++ "\n--\nLOCK TABLES " ++ t.Name ++ " WRITE;\n"
    ++ insertText t ++ "\nUNLOCK TABLES;\n"

/-- Text of the footer. -/
def footerText (completeTime : String) : String :=
  "\n-- Dump completed on " ++ completeTime ++ "\n"

/-- The name `Dump` gives the artifact in world `w`: the current instant in
the layout of the dumper. -/
def artifactName (d : Dumper) (w : World) : String :=
  (w.clock w.ticks).Format d.format

/-- The path `Dump` resolves in world `w`. -/
def artifactPath (d : Dumper) (w : World) : String :=
  pathJoin d.dir (artifactName d w ++ ".sql")

/-- The world once `Dump` has read the clock and created the empty file. -/
def created (d : Dumper) (w : World) : World :=
  { w with ticks := w.ticks + 1,
           files := Function.update w.files (artifactPath d w) (some (Entry.file "")) }

/-- The literal the serializer writes for a cell: the bare token for NULL,
the raw text between single quotes otherwise. -/
def cellLiteral : Cell → String
  | none => "null"
  | some s => "'" ++ s ++ "'"

/-- A responder that answers every query with the same result set. -/
def constDB (r : Rows) : DB := ⟨fun _ _ => Except.ok r⟩

/-- The introspection query for a table. -/
def showCreate (name : String) : String := "SHOW CREATE TABLE " ++ name

/-- The row of the probe whose values `createTableSQL` ends up with: the
four-column probe (issued second) when its scan succeeds, otherwise the
two-column probe (issued first) when its scan succeeds. -/
def keptProbe (db : DB) (log : List String) (name : String) : Option (List Cell) :=
  match Row.Scan (db.respond (log ++ [showCreate name]) (showCreate name)) 4 with
  | Except.ok cells => some cells
  | Except.error _ =>
    match Row.Scan (db.respond log (showCreate name)) 2 with
    | Except.ok cells => some cells
    | Except.error _ => none

/-- An executor that answers the first query it receives with a two-column
row naming the table `other`, and every later query with a four-column row
naming the table `users`. -/
def twoShapesDB : DB :=
  ⟨fun log _ =>
    if log = [] then
      Except.ok ⟨["Table", "Create Table"],
        [[some "other", some "CREATE TABLE other (id INT)"]], none⟩
    else
      Except.ok ⟨["Table", "Create Table", "character_set_client", "collation_connection"],
        [[some "users", some "CREATE TABLE users (id INT)", some "utf8", some "utf8_general_ci"]],
        none⟩⟩

/-- An executor on which every query fails. -/
def failingDB : DB := ⟨fun _ _ => Except.error (Error.external "connection refused")⟩

/-- A clock that always shows the same instant. -/
def fixedClock : Nat → Time := fun _ => ⟨fun _ => "monday", "Monday noon"⟩

/-- A world whose only entry is the directory `/backup`. -/
def emptyBackup : World :=
  ⟨fun p => if p = "/backup" then some Entry.dir else none, fun _ => none, fun _ => none,
    fun _ => none, fixedClock, 0, []⟩

/-- A world in which `/backup/monday.sql` holds an earlier dump. -/
def usedBackup : World :=
  ⟨fun p => if p = "/backup" then some Entry.dir
      else if p = "/backup/monday.sql" then some (Entry.file "-- earlier dump\n") else none,
    fun _ => none, fun _ => none, fun _ => none, fixedClock, 0, []⟩

/-- A world in which `/backup/monday.sql` holds an earlier dump that the
process may neither read nor write: opening it, for reading or through
`os.Create`, is denied. -/
def lockedBackup : World :=
  ⟨fun p => if p = "/backup" then some Entry.dir
      else if p = "/backup/monday.sql" then some (Entry.file "-- earlier dump\n") else none,
    fun p => if p = "/backup/monday.sql"
      then some (Error.external "open /backup/monday.sql: permission denied") else none,
    fun p => if p = "/backup/monday.sql"
      then some (Error.external "open /backup/monday.sql: permission denied") else none,
    fun _ => none, fixedClock, 0, []⟩

/-- An executor that knows the tables `users` and `orders`, and answers the
introspection query for `users` with a row naming the table `other`. -/
def mismatchDB : DB :=
  ⟨fun _ q =>
    if q = "SELECT version()" then Except.ok ⟨["version()"], [[some "8.0.36"]], none⟩
    else if q = "SHOW TABLES" then
      Except.ok ⟨["Tables_in_shop"], [[some "users"], [some "orders"]], none⟩
    else if q = "SHOW CREATE TABLE users" then
      Except.ok ⟨["Table", "Create Table"],
        [[some "other", some "CREATE TABLE other (id INT)"]], none⟩
    else Except.error (Error.external "unexpected query")⟩

/-- Text written for one table: the schema block, the data block when row
data is included, and the line that closes the `range` body. -/
def tableSection (withSQLValue : Bool) (t : table) : String :=
  if withSQLValue then schemaText t ++ lockText t ++ "\t\n" else schemaText t ++ "\t\n"

/-- Text of a whole document. -/
def documentText (data : dump) : String :=
  bannerText data.DumpVersion data.ServerVersion
    ++ concatAll (data.Tables.map (tableSection data.WithSQLValue))
    ++ footerText data.CompleteTime

/-- The executor of the scenario: the tables `users` and `orders`, in this
order; `users` has no rows, `orders` has the single row whose value is 1; the
introspection query is answered in its two-column form. -/
def shopDB (serverVersion : String) : DB :=
  ⟨fun _ q =>
    if q = "SELECT version()" then Except.ok ⟨["version()"], [[some serverVersion]], none⟩
    else if q = "SHOW TABLES" then
      Except.ok ⟨["Tables_in_shop"], [[some "users"], [some "orders"]], none⟩
    else if q = "SHOW CREATE TABLE users" then
      Except.ok ⟨["Table", "Create Table"],
        [[some "users", some "CREATE TABLE users (id INT)"]], none⟩
    else if q = "SHOW CREATE TABLE orders" then
      Except.ok ⟨["Table", "Create Table"],
        [[some "orders", some "CREATE TABLE orders (id INT)"]], none⟩
    else if q = "SELECT * FROM users" then Except.ok ⟨["id"], [], none⟩
    else if q = "SELECT * FROM orders" then Except.ok ⟨["id"], [[some "1"]], none⟩
    else Except.error (Error.external "unexpected query")⟩

/-- The string `pat` occurs in the string `s`. -/
def occursIn (pat s : String) : Prop := pat.toList <:+: s.toList

instance (pat s : String) : Decidable (occursIn pat s) :=
  inferInstanceAs (Decidable (pat.toList <:+: s.toList))

/-- No occurrence of `P` can start inside the fixed text `F`, whatever
follows `F`: no non-empty end of `F` begins `P` or is begun by `P`. -/
def clearOf (P : List Char) : List Char → Bool
  | [] => true
  | a :: F => !((a :: F).isPrefixOf P) && !(P.isPrefixOf (a :: F)) && clearOf P F

/-- The conditions on a pattern under which the fixed text of the schema-only
template can neither contain nor begin an occurrence of it: the pattern is
not empty, has no line break and no semicolon, and no occurrence can start
inside one of the fixed line beginnings. -/
def templateClear (P : String) : Bool :=
  !P.data.isEmpty && !P.data.contains '\n' && !P.data.contains ';'
    && clearOf P.data "-- Go SQL Dump ".data
    && clearOf P.data "--".data
    && clearOf P.data "-- ------------------------------------------------------".data
    && clearOf P.data "-- Server version  ".data
    && clearOf P.data "-- Table structure for table ".data
    && clearOf P.data "DROP TABLE IF EXISTS ".data
    && clearOf P.data "\t".data
    && clearOf P.data "-- Dump completed on ".data

/-- The strings a document takes from the database and the clock do not
contain the pattern. -/
def fieldsFree (P : String) (data : dump) : Prop :=
  ¬ occursIn P data.DumpVersion ∧ ¬ occursIn P data.ServerVersion
    ∧ ¬ occursIn P data.CompleteTime
    ∧ ∀ t ∈ data.Tables, ¬ occursIn P t.Name ∧ ¬ occursIn P t.SQL

/-! ## Auxiliary facts on strings -/

theorem intercalate_go_eq_foldl (sep : String) (l : List String) (b : String) :
    String.intercalate.go b sep l = l.foldl (fun b s => b ++ sep ++ s) b := by
  induction l generalizing b with
  | nil => rfl
  | cons a as ih => simp [String.intercalate.go, ih]

theorem stringsJoin_eq (elems : List String) (sep : String) :
    stringsJoin elems sep = sep.intercalate elems := by
  cases elems with
  | nil => rfl
  | cons e rest => simp [stringsJoin, String.intercalate, intercalate_go_eq_foldl]

theorem foldl_join_length (sep : String) (l : List String) (b : String) :
    (l.foldl (fun b s => b ++ sep ++ s) b).length
      = b.length + (l.map String.length).sum + sep.length * l.length := by
  induction l generalizing b with
  | nil => simp
  | cons a as ih =>
    simp only [List.foldl_cons, ih, String.length_append, List.map_cons, List.sum_cons,
      List.length_cons]
    ring

theorem stringsJoin_length (elems : List String) (sep : String) :
    (stringsJoin elems sep).length
      = (elems.map String.length).sum + sep.length * (elems.length - 1) := by
  cases elems with
  | nil => simp [stringsJoin]
  | cons e rest =>
    simp only [stringsJoin, foldl_join_length, List.map_cons, List.sum_cons, List.length_cons,
      Nat.add_sub_cancel]

/-! ## Auxiliary facts on the row serializer -/

theorem createTableValuesLoop_ok (n : Nat) (rows : List (List Cell)) (acc : List String)
    (h : ∀ r ∈ rows, r.length = n) :
    createTableValuesLoop n rows acc = Except.ok (acc ++ rows.map group) := by
  induction rows generalizing acc with
  | nil => simp [createTableValuesLoop]
  | cons r rs ih =>
    have hr : r.length = n := h r (List.mem_cons_self _ _)
    have hrs : ∀ x ∈ rs, x.length = n := fun x hx => h x (List.mem_cons_of_mem _ hx)
    simp [createTableValuesLoop, Rows.Scan, hr, ih _ hrs, group]

theorem literal_scanPtr (c : Cell) :
    literal (scanPtr c) = (match c with | none => "null" | some s => "'" ++ s ++ "'") := by
  cases c <;> simp [literal, scanPtr, NullString.Scan]

theorem createTableValues_eq (db : DB) (log : List String) (name : String)
    (cols : List String) (rows : List (List Cell)) (err : Option Error)
    (hq : db.respond log ("SELECT * FROM " ++ name) = Except.ok ⟨cols, rows, err⟩)
    (hC : 1 ≤ cols.length) (hrows : ∀ r ∈ rows, r.length = cols.length) :
    createTableValues db log name
      = ((stringsJoin (rows.map group) ",", err), log ++ ["SELECT * FROM " ++ name]) := by
  have hne : cols.length ≠ 0 := by omega
  simp [createTableValues, DB.Query, hq, hne, createTableValuesLoop_ok _ _ _ hrows]

/-! ## The parsed templates and what they write -/

theorem parse_schemaOnly : parse (tmpl ++ complete) = Except.ok (bannerTmpl schemaBody) := by
  rfl

set_option maxRecDepth 4000 in
theorem parse_withData :
    parse (tmpl ++ tmplSQLValue ++ complete) = Except.ok (bannerTmpl dataBody) := by
  rfl

theorem parse_tmplSQLValue :
    parse tmplSQLValue = Except.ok (lockTmpl "" (Tmpl.text "\nUNLOCK TABLES;\n" Tmpl.done)) := by
  rfl

theorem execEach_ok (body : table → String × Option Error) (f : table → String)
    (h : ∀ t, body t = (f t, none)) (ts : List table) :
    execEach body ts = (concatAll (ts.map f), none) := by
  induction ts with
  | nil => rfl
  | cons t ts ih => simp [execEach, h t, ih, concatAll]

theorem isEmpty_eq_false_of_ne (s : String) (h : s ≠ "") : s.isEmpty = false := by
  cases hs : s.isEmpty with
  | false => rfl
  | true => exact absurd ((String.isEmpty_iff s).1 hs) h

theorem exec_schemaBody (t : table) :
    exec schemaBody (Dot.ofTable t) = (schemaText t ++ "\t\n", none) := by
  simp only [schemaBody, exec, Dot.field, Val.print, schemaText, Option.bind, if_true,
    reduceIte, String.reduceEq, Prod.mk.injEq, and_true]
  apply String.ext
  simp [String.data_append]

theorem isEmpty_empty : ("" : String).isEmpty = true := rfl

theorem exec_dataBody (t : table) :
    exec dataBody (Dot.ofTable t) = (schemaText t ++ lockText t ++ "\t\n", none) := by
  by_cases hv : t.Values = ""
  · simp only [dataBody, lockTmpl, exec, Dot.field, Val.print, Val.truth, schemaText, lockText,
      insertText, hv, isEmpty_empty, Option.bind, if_true, reduceIte, String.reduceEq,
      Prod.mk.injEq, and_true, Bool.not_true, Bool.false_eq_true, if_false]
    apply String.ext
    simp [String.data_append]
  · have he := isEmpty_eq_false_of_ne _ hv
    simp only [dataBody, lockTmpl, exec, Dot.field, Val.print, Val.truth, schemaText, lockText,
      insertText, hv, he, Option.bind, if_true, reduceIte, String.reduceEq,
      Prod.mk.injEq, and_true, Bool.not_false, if_false]
    apply String.ext
    simp [String.data_append]

theorem exec_tmplSQLValue (t : table) :
    exec (lockTmpl "" (Tmpl.text "\nUNLOCK TABLES;\n" Tmpl.done)) (Dot.ofTable t)
      = (lockText t, none) := by
  by_cases hv : t.Values = ""
  · simp only [lockTmpl, exec, Dot.field, Val.print, Val.truth, lockText,
      insertText, hv, isEmpty_empty, Option.bind, if_true, reduceIte, String.reduceEq,
      Prod.mk.injEq, and_true, Bool.not_true, Bool.false_eq_true, if_false]
    apply String.ext
    simp [String.data_append]
  · have he := isEmpty_eq_false_of_ne _ hv
    simp only [lockTmpl, exec, Dot.field, Val.print, Val.truth, lockText,
      insertText, hv, he, Option.bind, if_true, reduceIte, String.reduceEq,
      Prod.mk.injEq, and_true, Bool.not_false, if_false]
    apply String.ext
    simp [String.data_append]

theorem exec_banner (body : Tmpl) (f : table → String)
    (h : ∀ t, exec body (Dot.ofTable t) = (f t, none)) (d : dump) :
    exec (bannerTmpl body) (Dot.ofDump d)
      = (bannerText d.DumpVersion d.ServerVersion ++ concatAll (d.Tables.map f)
          ++ footerText d.CompleteTime, none) := by
  simp only [bannerTmpl, footerTmpl, exec, Dot.field, Val.print, execEach_ok _ f h, bannerText,
    footerText, Option.bind, if_true, reduceIte, String.reduceEq, Prod.mk.injEq, and_true]
  apply String.ext
  simp [String.data_append]

/-! ## Auxiliary facts on `Dump` -/

theorem Dump_path (d : Dumper) (w : World) : (d.Dump w).1.1 = artifactPath d w := by
  simp only [Dumper.Dump, artifactPath, artifactName, timeNow]
  repeat' split
  all_goals rfl

theorem Dump_of_present (d : Dumper) (w : World) (e : Entry)
    (h : w.files (artifactPath d w) = some e) (ho : w.openErr (artifactPath d w) = none)
    (hs : w.statErr (artifactPath d w) = none) :
    d.Dump w = ((artifactPath d w, some (Error.dumpExists (artifactName d w))),
      { w with ticks := w.ticks + 1 }) := by
  simp only [artifactPath, artifactName] at h ho hs
  simp [Dumper.Dump, timeNow, pathExists, osOpen, fileStat, artifactPath, artifactName, h, ho, hs]

theorem osCreate_frame (w : World) (p : String) :
    (osCreate w p).2.openErr = w.openErr ∧ (osCreate w p).2.statErr = w.statErr := by
  simp only [osCreate]
  repeat' split
  all_goals exact ⟨rfl, rfl⟩

theorem fileWrite_frame (w : World) (p s : String) :
    (fileWrite w p s).openErr = w.openErr ∧ (fileWrite w p s).statErr = w.statErr := by
  simp only [fileWrite]
  repeat' split
  all_goals exact ⟨rfl, rfl⟩

theorem Dump_frame (d : Dumper) (w : World) :
    (d.Dump w).2.openErr = w.openErr ∧ (d.Dump w).2.statErr = w.statErr := by
  have hf := osCreate_frame { w with ticks := w.ticks + 1 }
    (pathJoin d.dir ((w.clock w.ticks).Format d.format ++ ".sql"))
  simp only [Dumper.Dump, timeNow]
  split
  · exact ⟨rfl, rfl⟩
  · generalize osCreate { w with ticks := w.ticks + 1 }
      (pathJoin d.dir ((w.clock w.ticks).Format d.format ++ ".sql")) = r at hf
    rcases r with ⟨_ | err, w2⟩
    · simp only [] at hf ⊢
      repeat' split
      all_goals first
        | exact hf
        | exact ⟨(fileWrite_frame _ _ _).1.trans hf.1, (fileWrite_frame _ _ _).2.trans hf.2⟩
    · exact hf

theorem Dump_of_absent (d : Dumper) (w : World)
    (h : w.files (artifactPath d w) = none) (hc : w.createErr (artifactPath d w) = none) :
    d.Dump w =
      (let w2 := created d w
       let sv := getServerVersion d.db w2.log
       match sv.1.2 with
       | some err => ((artifactPath d w, some err), { w2 with log := sv.2 })
       | none =>
         let ts := getTables d.db sv.2
         match ts.1.2 with
         | some err => ((artifactPath d w, some err), { w2 with log := ts.2 })
         | none =>
           let b := buildTables d.db d.withSQLValue ts.1.1 [] ts.2
           match b.1.2 with
           | some err => ((artifactPath d w, some err), { w2 with log := b.2 })
           | none =>
             let data : dump :=
               ⟨version, sv.1.1, b.1.1, (w.clock (w.ticks + 1)).String, d.withSQLValue⟩
             match parse d.genTemplate with
             | Except.error err =>
               ((artifactPath d w, some err), { w2 with log := b.2, ticks := w.ticks + 2 })
             | Except.ok t =>
               ((artifactPath d w, (exec t (Dot.ofDump data)).2),
                 fileWrite { w2 with log := b.2, ticks := w.ticks + 2 } (artifactPath d w)
                   (exec t (Dot.ofDump data)).1)) := by
  simp only [artifactPath, artifactName] at h hc
  simp only [Dumper.Dump, timeNow, pathExists, osOpen, fileStat, osCreate, artifactPath, artifactName,
    created, h, hc]
  simp only [Bool.false_eq_true, if_false]

/-! ## The row serializer (claims C2, C3) -/

theorem group_eq (row : List Cell) :
    group row = "(" ++ ",".intercalate (row.map cellLiteral) ++ ")" := by
  have h : (row.map scanPtr).map literal = row.map cellLiteral := by
    rw [List.map_map]
    apply List.map_congr_left
    intro c _
    cases c <;> simp [literal, scanPtr, NullString.Scan, cellLiteral]
  simp [group, h, stringsJoin_eq]

theorem group_length (row : List Cell) :
    (group row).length
      = ((row.map cellLiteral).map String.length).sum + (row.length - 1) + 2 := by
  rw [group_eq, ← stringsJoin_eq]
  simp only [String.length_append, stringsJoin_length, List.length_map]
  have h1 : ("(" : String).length = 1 := rfl
  have h2 : (")" : String).length = 1 := rfl
  have h3 : ("," : String).length = 1 := rfl
  rw [h1, h2, h3]
  omega

theorem sum_map_congr {α : Type} (f g : α → Nat) (l : List α) (h : ∀ x ∈ l, f x = g x) :
    (l.map f).sum = (l.map g).sum := by
  rw [List.map_congr_left h]

/-- C2.  When the executor answers `SELECT * FROM name` with `C ≥ 1` columns
and `N` rows of `C` cells each, without error, `createTableValues` returns,
with a nil error, the join by single commas of exactly `N` groups, one per
row in order; the group of a row is an opening parenthesis, the join by
single commas of exactly `C` literals, one per cell, and a closing
parenthesis.  Nothing is put in front, behind or around the sequence: the
length of the string is the length of the literals plus `C - 1` commas and
two parentheses per group plus `N - 1` commas between groups.  The text of
the cells is arbitrary. -/
theorem createTableValues_groups (db : DB) (log : List String) (name : String)
    (cols : List String) (rows : List (List Cell))
    (hq : db.respond log ("SELECT * FROM " ++ name) = Except.ok ⟨cols, rows, none⟩)
    (hC : 1 ≤ cols.length) (hrows : ∀ r ∈ rows, r.length = cols.length) :
    let lits : List (List String) := rows.map (fun r => r.map cellLiteral)
    let groups : List String := lits.map (fun l => "(" ++ ",".intercalate l ++ ")")
    (createTableValues db log name).1 = (",".intercalate groups, none)
      ∧ groups.length = rows.length
      ∧ (∀ l ∈ lits, l.length = cols.length)
      ∧ (createTableValues db log name).1.1.length
          = (lits.map (fun l => (l.map String.length).sum + (cols.length - 1) + 2)).sum
            + (rows.length - 1) := by
  intro lits groups
  have hgroups : groups = rows.map group := by
    simp only [groups, lits, List.map_map]
    apply List.map_congr_left
    intro r _
    simp [group_eq]
  have hval := createTableValues_eq db log name cols rows none hq hC hrows
  refine ⟨?_, ?_, ?_, ?_⟩
  · rw [hval, hgroups, stringsJoin_eq]
  · simp [groups, lits]
  · intro l hl
    simp only [lits, List.mem_map] at hl
    obtain ⟨r, hr, rfl⟩ := hl
    simp [hrows r hr]
  · rw [hval]
    simp only [stringsJoin_length, List.length_map, List.map_map, lits]
    have h3 : ("," : String).length = 1 := rfl
    rw [h3, Nat.one_mul]
    congr 1
    apply sum_map_congr
    intro r hr
    simp only [Function.comp, group_length, hrows r hr]

theorem createTableValues_groups_witness :
    (createTableValues (constDB ⟨["a", "b"], [[some "x,y", none], [some "(", some ""]], none⟩)
        [] "t").1 = ("('x,y',null),('(','')", none) := by
  have h := createTableValues_groups
    (constDB ⟨["a", "b"], [[some "x,y", none], [some "(", some ""]], none⟩) [] "t"
    ["a", "b"] [[some "x,y", none], [some "(", some ""]] rfl (by decide) (by decide)
  simpa [cellLiteral, String.intercalate, String.intercalate.go] using h.1

/-- C3.  In the string `createTableValues` returns, the literal at position
`j` of the group at position `i` is the rendering of the cell in column `j`
of row `i`: exactly the unquoted token `null` for a SQL NULL, and exactly a
single quote, the raw text unchanged, and a single quote for any other
value. -/
theorem createTableValues_literals (db : DB) (log : List String) (name : String)
    (cols : List String) (rows : List (List Cell))
    (hq : db.respond log ("SELECT * FROM " ++ name) = Except.ok ⟨cols, rows, none⟩)
    (hC : 1 ≤ cols.length) (hrows : ∀ r ∈ rows, r.length = cols.length) :
    ∃ lits : List (List String),
      (createTableValues db log name).1
          = (",".intercalate (lits.map (fun l => "(" ++ ",".intercalate l ++ ")")), none)
        ∧ lits.length = rows.length
        ∧ ∀ (i j : Nat) (row : List Cell) (c : Cell),
            rows[i]? = some row → row[j]? = some c →
            ∃ l, lits[i]? = some l ∧ l.length = row.length ∧
              l[j]? = some (match c with
                | none => "null"
                | some s => "'" ++ s ++ "'") := by
  refine ⟨rows.map (fun r => (r.map scanPtr).map literal), ?_, by simp, ?_⟩
  · have hg : rows.map group
        = (rows.map (fun r => (r.map scanPtr).map literal)).map
            (fun l => "(" ++ ",".intercalate l ++ ")") := by
      rw [List.map_map]
      apply List.map_congr_left
      intro r _
      simp [group, stringsJoin_eq]
    rw [createTableValues_eq db log name cols rows none hq hC hrows, stringsJoin_eq, hg]
  · intro i j row c hi hj
    refine ⟨(row.map scanPtr).map literal, by simp [hi], by simp, ?_⟩
    simp only [List.getElem?_map, hj, Option.map_some']
    cases c <;> simp [literal, scanPtr, NullString.Scan]

theorem createTableValues_literals_witness :
    ∃ lits : List (List String),
      (createTableValues (constDB ⟨["a"], [[none], [some "it's"]], none⟩) [] "t").1
          = (",".intercalate (lits.map (fun l => "(" ++ ",".intercalate l ++ ")")), none)
        ∧ lits.length = 2
        ∧ ∀ (i j : Nat) (row : List Cell) (c : Cell),
            [[none], [some "it's"]][i]? = some row → row[j]? = some c →
            ∃ l, lits[i]? = some l ∧ l.length = row.length ∧
              l[j]? = some (match c with
                | none => "null"
                | some s => "'" ++ s ++ "'") :=
  createTableValues_literals (constDB ⟨["a"], [[none], [some "it's"]], none⟩) [] "t"
    ["a"] [[none], [some "it's"]] rfl (by decide) (by decide)

/-! ## The descriptor builder (claim C6) -/

theorem createTableSQL_log (db : DB) (log : List String) (name : String) :
    (createTableSQL db log name).2 = log ++ [showCreate name, showCreate name] := by
  simp only [createTableSQL, DB.Query, showCreate]
  repeat' split
  all_goals simp

theorem createTableSQL_kept (db : DB) (log : List String) (name : String) (cells : List Cell)
    (h : keptProbe db log name = some cells) :
    (createTableSQL db log name).1
      = if (dest cells 0).String ≠ name then ("", some Error.tableMismatch)
        else ((dest cells 1).String, none) := by
  simp only [keptProbe, showCreate] at h
  simp only [createTableSQL, DB.Query]
  cases h1 : Row.Scan (db.respond log ("SHOW CREATE TABLE " ++ name)) 2 <;>
    cases h2 : Row.Scan (db.respond (log ++ ["SHOW CREATE TABLE " ++ name])
      ("SHOW CREATE TABLE " ++ name)) 4 <;>
    simp_all <;> split <;> rfl

theorem createTableSQL_none (db : DB) (log : List String) (name : String)
    (h : keptProbe db log name = none) :
    ∃ e, (createTableSQL db log name).1 = ("", some e) := by
  simp only [keptProbe, showCreate] at h
  simp only [createTableSQL, DB.Query]
  cases h1 : Row.Scan (db.respond log ("SHOW CREATE TABLE " ++ name)) 2 <;>
    cases h2 : Row.Scan (db.respond (log ++ ["SHOW CREATE TABLE " ++ name])
      ("SHOW CREATE TABLE " ++ name)) 4 <;>
    simp_all

/-- `createTable` returns a record with a nil error, or no record with an
error; a record carries the requested name and the statement `createTableSQL`
returned. -/
theorem createTable_cases (db : DB) (log : List String) (name : String) (withValue : Bool) :
    (∃ t, (createTable db log name withValue).1 = (some t, none) ∧ t.Name = name
        ∧ (createTableSQL db log name).1 = (t.SQL, none))
      ∨ (∃ e, (createTable db log name withValue).1 = (none, some e)) := by
  simp only [createTable]
  rcases hs : (createTableSQL db log name).1 with ⟨sql, _ | e⟩
  · cases withValue
    · left
      simp [hs]
    · rcases hv : (createTableValues db (createTableSQL db log name).2 name).1 with ⟨v, _ | e⟩
      · left
        simp [hs, hv]
      · right
        simp [hs, hv]
  · right
    simp [hs]

/-! ## Auxiliary facts on the table loop of `Dump` -/

theorem fileWrite_created (w : World) (p s : String) (c : String)
    (h : w.files p = some (Entry.file c)) :
    (fileWrite w p s).files p = some (Entry.file (c ++ s)) := by
  simp [fileWrite, h]

/-- Once `Dump` is past the creation of the file, the path holds a regular
file when `Dump` returns, whatever happens afterwards. -/
theorem Dump_file_after (d : Dumper) (w : World)
    (h : w.files (artifactPath d w) = none) (hc : w.createErr (artifactPath d w) = none) :
    ∃ c, (d.Dump w).2.files (artifactPath d w) = some (Entry.file c) := by
  rw [Dump_of_absent d w h hc]
  simp only []
  split
  · exact ⟨"", by simp [created]⟩
  · split
    · exact ⟨"", by simp [created]⟩
    · split
      · exact ⟨"", by simp [created]⟩
      · split
        · exact ⟨"", by simp [created]⟩
        · exact ⟨_, fileWrite_created _ _ _ "" (by simp [created])⟩

theorem createTable_none_none (db : DB) (log : List String) (name : String) (withValue : Bool)
    (l : List String) : createTable db log name withValue ≠ ((none, none), l) := by
  intro h
  rcases createTable_cases db log name withValue with ⟨t, ht, _, _⟩ | ⟨e, he⟩
  · rw [h] at ht
    simp at ht
  · rw [h] at he
    simp at he

theorem buildTables_append (db : DB) (withValue : Bool) (pre rest : List String)
    (acc : List table) (log : List String) :
    buildTables db withValue (pre ++ rest) acc log =
      match buildTables db withValue pre acc log with
      | ((acc1, none), log1) => buildTables db withValue rest acc1 log1
      | ((acc1, some e), log1) => ((acc1, some e), log1) := by
  induction pre generalizing acc log with
  | nil => simp [buildTables]
  | cons n ns ih =>
    simp only [List.cons_append, buildTables]
    rcases hct : createTable db log n withValue with ⟨⟨t, _ | e⟩, l⟩
    · exact ih _ _
    · simp

theorem buildTables_names (db : DB) (withValue : Bool) (names : List String)
    (acc recs : List table) (log log1 : List String)
    (h : buildTables db withValue names acc log = ((recs, none), log1)) :
    recs.map (fun t => t.Name) = acc.map (fun t => t.Name) ++ names := by
  induction names generalizing acc log with
  | nil =>
    simp only [buildTables, Prod.mk.injEq, and_true] at h
    simp [h.1]
  | cons n ns ih =>
    simp only [buildTables] at h
    rcases hct : createTable db log n withValue with ⟨⟨t, _ | e⟩, l⟩
    · rw [hct] at h
      simp only [] at h
      rcases createTable_cases db log n withValue with ⟨t1, ht, hn, _⟩ | ⟨e, he⟩
      · rw [hct] at ht
        simp only [Prod.mk.injEq, and_true] at ht
        subst ht
        have := ih _ _ h
        simp [this, hn]
      · rw [hct] at he
        simp at he
    · rw [hct] at h
      simp at h

/-- The queries `createTable` issues for a table mention that table only. -/
theorem createTable_log (db : DB) (log : List String) (name : String) (withValue : Bool) :
    ∃ ext, (createTable db log name withValue).2 = log ++ ext
      ∧ ∀ q ∈ ext, q = "SHOW CREATE TABLE " ++ name ∨ q = "SELECT * FROM " ++ name := by
  have hs := createTableSQL_log db log name
  have hv : ∀ l, (createTableValues db l name).2 = l ++ ["SELECT * FROM " ++ name] := by
    intro l
    simp only [createTableValues, DB.Query]
    repeat' split
    all_goals rfl
  simp only [createTable]
  split
  · exact ⟨[showCreate name, showCreate name], hs, by simp [showCreate]⟩
  · split
    · split
      · refine ⟨[showCreate name, showCreate name, "SELECT * FROM " ++ name], ?_, by
          simp [showCreate]⟩
        simp [hv, hs]
      · refine ⟨[showCreate name, showCreate name, "SELECT * FROM " ++ name], ?_, by
          simp [showCreate]⟩
        simp [hv, hs]
    · exact ⟨[showCreate name, showCreate name], hs, by simp [showCreate]⟩

/-- C6, as stated, fails: the two-column probe for `users` succeeds and echoes
the name `other`, yet `createTableSQL` returns a statement and a nil error,
because the four-column probe succeeds afterwards and overwrites the name. -/
theorem createTableSQL_first_probe_overwritten :
    Row.Scan (twoShapesDB.respond [] (showCreate "users")) 2
        = Except.ok [some "other", some "CREATE TABLE other (id INT)"]
      ∧ (dest [some "other", some "CREATE TABLE other (id INT)"] 0).String ≠ "users"
      ∧ (createTableSQL twoShapesDB [] "users").1 = ("CREATE TABLE users (id INT)", none) := by
  refine ⟨rfl, by decide, rfl⟩

/-- C6, amended.  For every requested name, `createTable` either returns a
record whose `Name` is the requested name and whose `SQL` is the statement of
the probe that was kept (the four-column probe when it succeeds, otherwise the
two-column probe), that probe echoing exactly the requested name, or returns
an error and no record.  Whenever the kept probe echoes a name that differs
from the requested one, `createTableSQL` fails with the error `returned table
is not the same as requested table`. -/
theorem createTable_name_checked (db : DB) (log : List String) (name : String)
    (withValue : Bool) :
    ((∃ t cells, (createTable db log name withValue).1 = (some t, none) ∧ t.Name = name
          ∧ keptProbe db log name = some cells ∧ (dest cells 0).String = name
          ∧ t.SQL = (dest cells 1).String)
        ∨ (∃ e, (createTable db log name withValue).1 = (none, some e)))
      ∧ (∀ cells, keptProbe db log name = some cells → (dest cells 0).String ≠ name →
          createTableSQL db log name
            = (("", some Error.tableMismatch), log ++ [showCreate name, showCreate name])) := by
  constructor
  · rcases createTable_cases db log name withValue with ⟨t, ht, hn, hs⟩ | ⟨e, he⟩
    · left
      cases hk : keptProbe db log name with
      | none =>
        obtain ⟨e, he⟩ := createTableSQL_none db log name hk
        rw [he] at hs
        simp at hs
      | some cells =>
        have h := createTableSQL_kept db log name cells hk
        rw [hs] at h
        by_cases hne : (dest cells 0).String ≠ name
        · simp [hne] at h
        · simp only [hne, if_false, Prod.mk.injEq, and_true] at h
          exact ⟨t, cells, ht, hn, rfl, not_not.mp hne, h⟩
    · right
      exact ⟨e, he⟩
  · intro cells hk hne
    have h := createTableSQL_kept db log name cells hk
    rw [if_pos hne] at h
    exact Prod.ext h (createTableSQL_log db log name)

theorem createTable_name_checked_witness :
    createTableSQL (constDB ⟨["Table", "Create Table"], [[some "other", some "x"]], none⟩)
        [] "users"
      = (("", some Error.tableMismatch), [showCreate "users", showCreate "users"]) :=
  (createTable_name_checked
      (constDB ⟨["Table", "Create Table"], [[some "other", some "x"]], none⟩) [] "users"
      true).2 [some "other", some "x"] rfl (by decide)

/-! ## The orchestrator (claims C7, C8, C9) -/

/-- C7, as stated, fails: `/backup/monday.sql` holds an earlier dump that
cannot be opened; `exists` reports false, `Dump` goes on to `os.Create`, and
returns the permission error of `os.Create`, not the error `Dump 'monday'
already exists.`. -/
theorem Dump_unreadable_artifact_not_reported :
    lockedBackup.files "/backup/monday.sql" = some (Entry.file "-- earlier dump\n")
      ∧ (pathExists lockedBackup "/backup/monday.sql").1 = false
      ∧ (Dumper.Dump ⟨failingDB, "Monday", "/backup", true⟩ lockedBackup).1
          = ("/backup/monday.sql",
              some (Error.external "open /backup/monday.sql: permission denied"))
      ∧ (Dumper.Dump ⟨failingDB, "Monday", "/backup", true⟩ lockedBackup).1.2
          ≠ some (Error.dumpExists "monday") := by
  refine ⟨rfl, rfl, rfl, by decide⟩

/-- C7, amended.  When the resolved path names an entry that can be opened
and inspected (`os.Open` and `Stat` succeed on it, so that `exists` reports
true), `Dump` returns the path with the error `Dump 'name' already exists.`;
the world afterwards differs only in the clock having been read once: no
file is created, opened for writing or modified, and no query is issued.
Hence, when a first run creates its artifact at a path on which `os.Open` and
`Stat` do not fail, and a second run resolves the same name, the second run
fails with that error and leaves every file as the first run left it. -/
theorem Dump_refuses_existing (d : Dumper) (w : World)
    (ho : w.openErr (artifactPath d w) = none) (hs : w.statErr (artifactPath d w) = none) :
    (∀ e, w.files (artifactPath d w) = some e →
        (pathExists w (artifactPath d w)).1 = true
          ∧ d.Dump w = ((artifactPath d w, some (Error.dumpExists (artifactName d w))),
              { w with ticks := w.ticks + 1 }))
      ∧ (w.files (artifactPath d w) = none → w.createErr (artifactPath d w) = none →
          artifactName d (d.Dump w).2 = artifactName d w →
          d.Dump (d.Dump w).2
            = ((artifactPath d w, some (Error.dumpExists (artifactName d w))),
                { (d.Dump w).2 with ticks := (d.Dump w).2.ticks + 1 })) := by
  refine ⟨fun e h => ⟨?_, Dump_of_present d w e h ho hs⟩, ?_⟩
  · simp [pathExists, osOpen, fileStat, h, ho, hs]
  · intro h hc hsame
    obtain ⟨c, hfile⟩ := Dump_file_after d w h hc
    have hp : artifactPath d (d.Dump w).2 = artifactPath d w := by
      simp only [artifactPath, hsame]
    have hfr := Dump_frame d w
    rw [← hp] at hfile
    have ho2 : (d.Dump w).2.openErr (artifactPath d (d.Dump w).2) = none := by
      rw [hfr.1, hp]
      exact ho
    have hs2 : (d.Dump w).2.statErr (artifactPath d (d.Dump w).2) = none := by
      rw [hfr.2, hp]
      exact hs
    rw [Dump_of_present d (d.Dump w).2 _ hfile ho2 hs2, hp, hsame]

theorem Dump_refuses_existing_witness :
    (Dumper.Dump ⟨failingDB, "Monday", "/backup", true⟩ usedBackup).1
        = ("/backup/monday.sql", some (Error.dumpExists "monday"))
      ∧ (Dumper.Dump ⟨failingDB, "Monday", "/backup", true⟩ usedBackup).2.files
          "/backup/monday.sql" = some (Entry.file "-- earlier dump\n")
      ∧ (Dumper.Dump ⟨failingDB, "Monday", "/backup", true⟩
          (Dumper.Dump ⟨failingDB, "Monday", "/backup", true⟩ emptyBackup).2).1
        = ("/backup/monday.sql", some (Error.dumpExists "monday")) := by
  have h := ((Dump_refuses_existing ⟨failingDB, "Monday", "/backup", true⟩ usedBackup
    rfl rfl).1 (Entry.file "-- earlier dump\n") rfl).2
  have h2 := (Dump_refuses_existing ⟨failingDB, "Monday", "/backup", true⟩ emptyBackup
    rfl rfl).2 rfl rfl rfl
  rw [h, h2]
  exact ⟨rfl, rfl, rfl⟩

/-- C8, as stated, fails: the version query fails, `Dump` returns the error,
and the path, which named nothing before, names an empty file afterwards. -/
theorem Dump_leaves_file_behind :
    emptyBackup.files "/backup/monday.sql" = none
      ∧ (Dumper.Dump ⟨failingDB, "Monday", "/backup", true⟩ emptyBackup).1
          = ("/backup/monday.sql", some (Error.external "connection refused"))
      ∧ (Dumper.Dump ⟨failingDB, "Monday", "/backup", true⟩ emptyBackup).2.files
          "/backup/monday.sql" = some (Entry.file "") := by
  refine ⟨rfl, rfl, rfl⟩

/-- C8, amended.  When the path names nothing, the file can be created, and
the version query, the table enumeration or the build of a table fails,
`Dump` returns an error and the file it created is left in place, empty: it
is not removed. -/
theorem Dump_failure_leaves_empty_file (d : Dumper) (w : World)
    (h : w.files (artifactPath d w) = none) (hc : w.createErr (artifactPath d w) = none)
    (hfail :
      (getServerVersion d.db w.log).1.2 ≠ none
        ∨ (getTables d.db (getServerVersion d.db w.log).2).1.2 ≠ none
        ∨ (buildTables d.db d.withSQLValue
            (getTables d.db (getServerVersion d.db w.log).2).1.1 []
            (getTables d.db (getServerVersion d.db w.log).2).2).1.2 ≠ none) :
    (d.Dump w).1.1 = artifactPath d w ∧ (d.Dump w).1.2 ≠ none
      ∧ (d.Dump w).2.files (artifactPath d w) = some (Entry.file "") := by
  refine ⟨Dump_path d w, ?_⟩
  rw [Dump_of_absent d w h hc]
  have hlog : (created d w).log = w.log := rfl
  simp only [hlog]
  split
  · simp [created]
  · split
    · simp [created]
    · split
      · simp [created]
      · simp_all

theorem Dump_failure_leaves_empty_file_witness :
    (Dumper.Dump ⟨failingDB, "Monday", "/backup", false⟩ emptyBackup).1.2 ≠ none
      ∧ (Dumper.Dump ⟨failingDB, "Monday", "/backup", false⟩ emptyBackup).2.files
          "/backup/monday.sql" = some (Entry.file "") :=
  (Dump_failure_leaves_empty_file ⟨failingDB, "Monday", "/backup", false⟩ emptyBackup rfl rfl
    (Or.inl (by decide))).2

/-- C9.  Suppose the path names nothing, the file is created, the version
query and the enumeration succeed, the tables listed are `pre`, then `nk`,
then `post`, every table of `pre` builds, and the build of `nk` fails with
error `e`.  Then `Dump` returns the path together with exactly `e`; the query
log when it returns is the log as the failed build of `nk` left it, which
extends the log before that build by queries on `nk` alone, so no query is
issued for a table of `post`; and the file holds the empty text: nothing has
been rendered for any table. -/
theorem Dump_aborts_at_first_failure (d : Dumper) (w : World) (pre post : List String)
    (nk : String) (e : Error) (sv : String) (log1 log2 logk loge : List String)
    (acc : List table) (r : Option table)
    (h : w.files (artifactPath d w) = none) (hc : w.createErr (artifactPath d w) = none)
    (hsv : getServerVersion d.db w.log = ((sv, none), log1))
    (hts : getTables d.db log1 = ((pre ++ nk :: post, none), log2))
    (hpre : buildTables d.db d.withSQLValue pre [] log2 = ((acc, none), logk))
    (hk : createTable d.db logk nk d.withSQLValue = ((r, some e), loge)) :
    (d.Dump w).1 = (artifactPath d w, some e)
      ∧ (d.Dump w).2.log = loge
      ∧ (∃ ext, loge = logk ++ ext
          ∧ ∀ q ∈ ext, q = "SHOW CREATE TABLE " ++ nk ∨ q = "SELECT * FROM " ++ nk)
      ∧ (d.Dump w).2.files (artifactPath d w) = some (Entry.file "") := by
  have hb : buildTables d.db d.withSQLValue (pre ++ nk :: post) [] log2
      = ((acc, some e), loge) := by
    rw [buildTables_append, hpre]
    simp [buildTables, hk]
  have hext := createTable_log d.db logk nk d.withSQLValue
  rw [hk] at hext
  rw [Dump_of_absent d w h hc]
  have hlog : (created d w).log = w.log := rfl
  simp only [hlog, hsv, hts, hb]
  exact ⟨trivial, trivial, hext, by simp [created]⟩

theorem Dump_aborts_at_first_failure_witness :
    (Dumper.Dump ⟨mismatchDB, "Monday", "/backup", true⟩ emptyBackup).1
        = ("/backup/monday.sql", some Error.tableMismatch)
      ∧ (Dumper.Dump ⟨mismatchDB, "Monday", "/backup", true⟩ emptyBackup).2.log
        = ["SELECT version()", "SHOW TABLES", "SHOW CREATE TABLE users",
            "SHOW CREATE TABLE users"]
      ∧ (Dumper.Dump ⟨mismatchDB, "Monday", "/backup", true⟩ emptyBackup).2.files
          "/backup/monday.sql" = some (Entry.file "") := by
  have h := Dump_aborts_at_first_failure ⟨mismatchDB, "Monday", "/backup", true⟩ emptyBackup
    [] ["orders"] "users" Error.tableMismatch "8.0.36" ["SELECT version()"]
    ["SELECT version()", "SHOW TABLES"] ["SELECT version()", "SHOW TABLES"]
    ["SELECT version()", "SHOW TABLES", "SHOW CREATE TABLE users", "SHOW CREATE TABLE users"]
    [] none rfl rfl rfl rfl rfl rfl
  exact ⟨h.1, h.2.1, h.2.2.2⟩

/-! ## The assembler (claims C1, C4, C5, C10) -/

/-- Parsing the template of a dumper succeeds, and executing it on a
document whose flag is the dumper's writes the text of the document. -/
theorem render_eq (d : Dumper) (data : dump) (hflag : data.WithSQLValue = d.withSQLValue) :
    ∃ t, parse d.genTemplate = Except.ok t
      ∧ exec t (Dot.ofDump data) = (documentText data, none) := by
  cases hw : d.withSQLValue with
  | false =>
    refine ⟨bannerTmpl schemaBody, ?_, ?_⟩
    · simp only [Dumper.genTemplate, hw]
      exact parse_schemaOnly
    · have hsec : tableSection false = fun t => schemaText t ++ "\t\n" := by
        funext t
        simp [tableSection]
      rw [exec_banner schemaBody (fun t => schemaText t ++ "\t\n") exec_schemaBody]
      simp [documentText, hsec, hflag, hw]
  | true =>
    refine ⟨bannerTmpl dataBody, ?_, ?_⟩
    · simp only [Dumper.genTemplate, hw]
      exact parse_withData
    · have hsec : tableSection true = fun t => schemaText t ++ lockText t ++ "\t\n" := by
        funext t
        simp [tableSection]
      rw [exec_banner dataBody (fun t => schemaText t ++ lockText t ++ "\t\n") exec_dataBody]
      simp [documentText, hsec, hflag, hw]

/-- A run of `Dump` in which every step succeeds writes the text of the
document to the file and returns a nil error. -/
theorem Dump_success (d : Dumper) (w : World) (sv : String) (names : List String)
    (recs : List table) (log1 log2 log3 : List String)
    (h : w.files (artifactPath d w) = none) (hc : w.createErr (artifactPath d w) = none)
    (hsv : getServerVersion d.db w.log = ((sv, none), log1))
    (hts : getTables d.db log1 = ((names, none), log2))
    (hb : buildTables d.db d.withSQLValue names [] log2 = ((recs, none), log3)) :
    (d.Dump w).1 = (artifactPath d w, none)
      ∧ (d.Dump w).2.files (artifactPath d w)
          = some (Entry.file (documentText
              ⟨version, sv, recs, (w.clock (w.ticks + 1)).String, d.withSQLValue⟩))
      ∧ (d.Dump w).2.log = log3 := by
  obtain ⟨t, hp, hx⟩ := render_eq d
    ⟨version, sv, recs, (w.clock (w.ticks + 1)).String, d.withSQLValue⟩ rfl
  rw [Dump_of_absent d w h hc]
  have hlog : (created d w).log = w.log := rfl
  simp only [hlog, hsv, hts, hb, hp, hx]
  refine ⟨trivial, ?_, ?_⟩
  · rw [fileWrite_created _ _ _ "" (by simp [created])]
    simp
  · simp only [fileWrite]
    split <;> rfl

theorem getTablesLoop_names (names : List String) (err : Option Error) (acc : List String) :
    getTablesLoop (names.map (fun n => [some n])) err acc = (acc ++ names, err) := by
  induction names generalizing acc with
  | nil => simp [getTablesLoop]
  | cons n ns ih => simp [getTablesLoop, Rows.Scan, dest, NullString.Scan, ih]

theorem shop_build (serverVersion : String) (log : List String) :
    (buildTables (shopDB serverVersion) true ["users", "orders"] [] log).1
      = ([⟨"users", "CREATE TABLE users (id INT)", ""⟩,
          ⟨"orders", "CREATE TABLE orders (id INT)", "('1')"⟩], none) := by
  simp [buildTables, createTable, createTableSQL, createTableValues, createTableValuesLoop,
    DB.Query, shopDB, Row.Scan, Rows.Scan, dest, NullString.Scan, stringsJoin, literal, scanPtr]

set_option maxRecDepth 100000 in
/-- C1, as stated, fails: in the scenario, with row data enabled, `Dump`
succeeds and the artifact has no line `INSERT INTO orders VALUES (1);`; the
value is written between single quotes, `INSERT INTO orders VALUES ('1');`. -/
theorem Dump_scenario_value_is_quoted :
    ∃ c, (Dumper.Dump ⟨shopDB "8.0.36", "Monday", "/backup", true⟩ emptyBackup).1
          = ("/backup/monday.sql", none)
      ∧ (Dumper.Dump ⟨shopDB "8.0.36", "Monday", "/backup", true⟩ emptyBackup).2.files
          "/backup/monday.sql" = some (Entry.file c)
      ∧ ¬ occursIn "INSERT INTO orders VALUES (1);" c
      ∧ occursIn "INSERT INTO orders VALUES ('1');" c := by
  refine ⟨"-- Go SQL Dump v0.0.1\n--\n-- ------------------------------------------------------\n-- Server version  8.0.36\n\n\n--\n-- Table structure for table users\n--\nDROP TABLE IF EXISTS users;\nCREATE TABLE users (id INT);\n\n--\n-- Dumping data for table users\n--\nLOCK TABLES users WRITE;\n\nUNLOCK TABLES;\n\t\n\n--\n-- Table structure for table orders\n--\nDROP TABLE IF EXISTS orders;\nCREATE TABLE orders (id INT);\n\n--\n-- Dumping data for table orders\n--\nLOCK TABLES orders WRITE;\n\nINSERT INTO orders VALUES ('1');\n\nUNLOCK TABLES;\n\t\n\n-- Dump completed on Monday noon\n",
    rfl, rfl, ?_, ?_⟩
  · decide
  · decide

set_option maxRecDepth 100000 in
/-- C1, amended.  In the scenario (tables `users`, `orders`; `users` without
rows; `orders` with the one row whose value is 1), with row data enabled and
the path free, `Dump` succeeds and the artifact is the banner followed, in
this order, by `DROP TABLE IF EXISTS users;` and `CREATE TABLE users (id
INT);`, by `LOCK TABLES users WRITE;` and `UNLOCK TABLES;` with only an empty
line between them, by `DROP TABLE IF EXISTS orders;` and `CREATE TABLE orders
(id INT);`, by `LOCK TABLES orders WRITE;`, `INSERT INTO orders VALUES
('1');` and `UNLOCK TABLES;`, and by the footer `-- Dump completed on` with
the completion time. -/
theorem Dump_scenario (serverVersion format dir : String) (w : World)
    (h : w.files (artifactPath ⟨shopDB serverVersion, format, dir, true⟩ w) = none)
    (hc : w.createErr (artifactPath ⟨shopDB serverVersion, format, dir, true⟩ w) = none) :
    (Dumper.Dump ⟨shopDB serverVersion, format, dir, true⟩ w).1
        = (artifactPath ⟨shopDB serverVersion, format, dir, true⟩ w, none)
      ∧ (Dumper.Dump ⟨shopDB serverVersion, format, dir, true⟩ w).2.files
          (artifactPath ⟨shopDB serverVersion, format, dir, true⟩ w)
        = some (Entry.file (
            "-- Go SQL Dump v0.0.1\n--\n-- ------------------------------------------------------\n-- Server version  "
            ++ serverVersion ++ "\n\n"
            ++ "\n--\n-- Table structure for table users\n--\n"
            ++ "DROP TABLE IF EXISTS users;\nCREATE TABLE users (id INT);\n"
            ++ "\n--\n-- Dumping data for table users\n--\n"
            ++ "LOCK TABLES users WRITE;\n" ++ "\n" ++ "UNLOCK TABLES;\n" ++ "\t\n"
            ++ "\n--\n-- Table structure for table orders\n--\n"
            ++ "DROP TABLE IF EXISTS orders;\nCREATE TABLE orders (id INT);\n"
            ++ "\n--\n-- Dumping data for table orders\n--\n"
            ++ "LOCK TABLES orders WRITE;\n" ++ "\n" ++ "INSERT INTO orders VALUES ('1');\n"
            ++ "\n" ++ "UNLOCK TABLES;\n" ++ "\t\n"
            ++ "\n-- Dump completed on " ++ (w.clock (w.ticks + 1)).String ++ "\n")) := by
  have hsv : getServerVersion (shopDB serverVersion) w.log
      = ((serverVersion, none), w.log ++ ["SELECT version()"]) := by
    simp [getServerVersion, DB.Query, shopDB, Row.Scan, Rows.Scan, dest, NullString.Scan]
  have hts : getTables (shopDB serverVersion) (w.log ++ ["SELECT version()"])
      = ((["users", "orders"], none), w.log ++ ["SELECT version()"] ++ ["SHOW TABLES"]) := by
    simp [getTables, getTablesLoop, DB.Query, shopDB, Rows.Scan, dest, NullString.Scan]
  have hb := shop_build serverVersion (w.log ++ ["SELECT version()"] ++ ["SHOW TABLES"])
  have hs := Dump_success ⟨shopDB serverVersion, format, dir, true⟩ w serverVersion
    ["users", "orders"]
    [⟨"users", "CREATE TABLE users (id INT)", ""⟩,
      ⟨"orders", "CREATE TABLE orders (id INT)", "('1')"⟩]
    _ _ _ h hc hsv hts (Prod.ext hb rfl)
  refine ⟨hs.1, ?_⟩
  rw [hs.2.1]
  refine congrArg (fun c => some (Entry.file c)) ?_
  simp only [documentText, tableSection, bannerText, footerText, concatAll, List.map, schemaText,
    lockText, insertText, version, if_true, String.reduceEq, if_false]
  apply String.ext
  simp [String.data_append]

theorem Dump_scenario_witness :
    (Dumper.Dump ⟨shopDB "8.0.36", "Monday", "/backup", true⟩ emptyBackup).1
      = ("/backup/monday.sql", none) :=
  (Dump_scenario "8.0.36" "Monday" "/backup" emptyBackup rfl rfl).1

/-- C4.  With row data included, the data block written for every table
record is the comment lines, `LOCK TABLES name WRITE;`, and `UNLOCK TABLES;`,
with between the two the line `INSERT INTO name VALUES values;` when the
serialized value string of the record is non-empty, and nothing but the
empty line when it is empty, so that no `VALUES` without tuples is ever
written; this block follows the schema block of each table in the whole
artifact.  A table whose result set has no rows serializes to the empty
string. -/
theorem data_block_insert_iff_values :
    (∀ t : table, ∃ tm, parse tmplSQLValue = Except.ok tm
        ∧ exec tm (Dot.ofTable t)
          = ("\n--\n-- Dumping data for table " ++ t.Name ++ "\n--\n"
              ++ "LOCK TABLES " ++ t.Name ++ " WRITE;\n"
              ++ (if t.Values = "" then ""
                  else "\nINSERT INTO " ++ t.Name ++ " VALUES " ++ t.Values ++ ";\n")
              ++ "\nUNLOCK TABLES;\n", none))
      ∧ (∀ (d : Dumper) (data : dump), d.withSQLValue = true →
          ∃ tm, parse d.genTemplate = Except.ok tm
            ∧ exec tm (Dot.ofDump data)
              = (bannerText data.DumpVersion data.ServerVersion
                  ++ concatAll (data.Tables.map (fun t =>
                      schemaText t
                      ++ ("\n--\n-- Dumping data for table " ++ t.Name ++ "\n--\n"
                          ++ "LOCK TABLES " ++ t.Name ++ " WRITE;\n"
                          ++ (if t.Values = "" then ""
                              else "\nINSERT INTO " ++ t.Name ++ " VALUES " ++ t.Values ++ ";\n")
                          ++ "\nUNLOCK TABLES;\n")
                      ++ "\t\n"))
                  ++ footerText data.CompleteTime, none))
      ∧ (∀ (db : DB) (log : List String) (name : String) (cols : List String),
          db.respond log ("SELECT * FROM " ++ name) = Except.ok ⟨cols, [], none⟩ →
          1 ≤ cols.length →
          (createTableValues db log name).1 = ("", none)) := by
  have hlock : ∀ t : table, lockText t
      = "\n--\n-- Dumping data for table " ++ t.Name ++ "\n--\n"
          ++ "LOCK TABLES " ++ t.Name ++ " WRITE;\n"
          ++ (if t.Values = "" then ""
              else "\nINSERT INTO " ++ t.Name ++ " VALUES " ++ t.Values ++ ";\n")
          ++ "\nUNLOCK TABLES;\n" := by
    intro t
    simp only [lockText, insertText]
    apply String.ext
    simp [String.data_append]
  refine ⟨?_, ?_, ?_⟩
  · intro t
    refine ⟨_, parse_tmplSQLValue, ?_⟩
    rw [exec_tmplSQLValue, hlock]
  · intro d data hw
    refine ⟨bannerTmpl dataBody, ?_, ?_⟩
    · simp only [Dumper.genTemplate, hw]
      exact parse_withData
    · rw [exec_banner dataBody (fun t => schemaText t ++ lockText t ++ "\t\n") exec_dataBody]
      simp only [hlock]
  · intro db log name cols hq hC
    rw [createTableValues_eq db log name cols [] none hq hC (by simp)]
    rfl

theorem data_block_insert_iff_values_witness :
    (createTableValues (constDB ⟨["id"], [], none⟩) [] "users").1 = ("", none)
      ∧ ∃ tm, parse (Dumper.genTemplate ⟨failingDB, "Monday", "/backup", true⟩) = Except.ok tm
          ∧ (exec tm (Dot.ofDump ⟨version, "8.0.36",
              [⟨"users", "CREATE TABLE users (id INT)", ""⟩], "Monday noon", true⟩)).2 = none := by
  refine ⟨data_block_insert_iff_values.2.2 (constDB ⟨["id"], [], none⟩) [] "users" ["id"] rfl
    (by decide), ?_⟩
  obtain ⟨tm, hp, hx⟩ := data_block_insert_iff_values.2.1
    ⟨failingDB, "Monday", "/backup", true⟩
    ⟨version, "8.0.36", [⟨"users", "CREATE TABLE users (id INT)", ""⟩], "Monday noon", true⟩ rfl
  exact ⟨tm, hp, by rw [hx]⟩

/-- C5.  When the executor answers `SHOW TABLES` with the rows `n1 .. nk`,
`getTables` returns exactly `[n1, .., nk]`, in that order; and when, in a run
of `Dump`, every one of those tables builds, the document has exactly `k`
table records, their names are `n1 .. nk` in that order, and the artifact is
the banner, the sections of these records in that order, and the footer. -/
theorem tables_keep_enumeration_order (db : DB) (log : List String) (cols names : List String)
    (hq : db.respond log "SHOW TABLES"
      = Except.ok ⟨cols, names.map (fun n => [some n]), none⟩) :
    getTables db log = ((names, none), log ++ ["SHOW TABLES"])
      ∧ ∀ (d : Dumper) (w : World) (serverVersion : String), d.db = db →
          w.files (artifactPath d w) = none → w.createErr (artifactPath d w) = none →
          getServerVersion db w.log = ((serverVersion, none), log) →
          (buildTables db d.withSQLValue names [] (log ++ ["SHOW TABLES"])).1.2 = none →
          ∃ recs : List table,
            recs.map (fun t => t.Name) = names ∧ recs.length = names.length
              ∧ (d.Dump w).1 = (artifactPath d w, none)
              ∧ (d.Dump w).2.files (artifactPath d w)
                = some (Entry.file (
                    bannerText version serverVersion
                    ++ concatAll (recs.map (tableSection d.withSQLValue))
                    ++ footerText (w.clock (w.ticks + 1)).String)) := by
  have hts : getTables db log = ((names, none), log ++ ["SHOW TABLES"]) := by
    simp [getTables, DB.Query, hq, getTablesLoop_names]
  refine ⟨hts, ?_⟩
  intro d w sv hdb h hc hsv hb
  subst hdb
  rcases hbt : buildTables d.db d.withSQLValue names [] (log ++ ["SHOW TABLES"])
    with ⟨⟨recs, err⟩, log3⟩
  rw [hbt] at hb
  simp only [] at hb
  subst hb
  have hn := buildTables_names _ _ _ _ _ _ _ hbt
  simp only [List.map_nil, List.nil_append] at hn
  have hs := Dump_success d w sv names recs _ _ _ h hc hsv hts hbt
  refine ⟨recs, hn, ?_, hs.1, ?_⟩
  · rw [← hn, List.length_map]
  · rw [hs.2.1]
    rfl

theorem tables_keep_enumeration_order_witness :
    getTables (shopDB "8.0.36") ["SELECT version()"]
        = ((["users", "orders"], none), ["SELECT version()", "SHOW TABLES"])
      ∧ ∃ recs : List table, recs.map (fun t => t.Name) = ["users", "orders"]
          ∧ (Dumper.Dump ⟨shopDB "8.0.36", "Monday", "/backup", false⟩ emptyBackup).2.files
              "/backup/monday.sql"
            = some (Entry.file (bannerText version "8.0.36"
                ++ concatAll (recs.map (tableSection false)) ++ footerText "Monday noon")) := by
  have h := tables_keep_enumeration_order (shopDB "8.0.36") ["SELECT version()"]
    ["Tables_in_shop"] ["users", "orders"] rfl
  refine ⟨h.1, ?_⟩
  obtain ⟨recs, hn, _, _, hf⟩ := h.2 ⟨shopDB "8.0.36", "Monday", "/backup", false⟩ emptyBackup
    "8.0.36" rfl rfl rfl rfl (by
      simp [buildTables, createTable, createTableSQL, DB.Query, shopDB, Row.Scan, Rows.Scan,
        dest, NullString.Scan])
  exact ⟨recs, hn, hf⟩

/-! ## Occurrences of a pattern in a schema-only document -/

theorem not_infix_sep {P a b : List Char} {c : Char} (hc : c ∉ P) (ha : ¬ P <:+: a)
    (hb : ¬ P <:+: b) : ¬ P <:+: a ++ c :: b := by
  have hP : P ≠ [] := by
    intro h
    exact ha (h ▸ List.nil_infix)
  induction a with
  | nil =>
    intro h
    rcases List.infix_cons_iff.1 h with h | h
    · rcases List.prefix_cons_iff.1 h with h | ⟨t, ht, _⟩
      · exact hP h
      · exact hc (ht ▸ List.mem_cons_self _ _)
    · exact hb h
  | cons x a ih =>
    intro h
    rw [List.cons_append] at h
    rcases List.infix_cons_iff.1 h with h | h
    · rw [← List.cons_append] at h
      rcases List.prefix_or_prefix_of_prefix h (List.prefix_append (x :: a) (c :: b)) with h1 | h1
      · exact ha h1.isInfix
      · obtain ⟨r, hr⟩ := h1
        rw [← hr, List.prefix_append_right_inj] at h
        rcases List.prefix_cons_iff.1 h with h2 | ⟨t, ht, _⟩
        · apply ha
          rw [← hr, h2, List.append_nil]
        · apply hc
          rw [← hr, ht]
          simp
    · exact ih (fun h' => ha (List.infix_cons h')) h

theorem not_infix_lead {P F x : List Char} (h : clearOf P F = true) (hx : ¬ P <:+: x) :
    ¬ P <:+: F ++ x := by
  induction F with
  | nil => simpa using hx
  | cons a F ih =>
    simp only [clearOf, Bool.and_eq_true, Bool.not_eq_true'] at h
    intro hin
    rw [List.cons_append] at hin
    rcases List.infix_cons_iff.1 hin with h1 | h1
    · rw [← List.cons_append] at h1
      rcases List.prefix_or_prefix_of_prefix h1 (List.prefix_append (a :: F) x) with h2 | h2
      · have h3 := List.isPrefixOf_iff_prefix.2 h2
        rw [h.1.2] at h3
        exact Bool.noConfusion h3
      · have h3 := List.isPrefixOf_iff_prefix.2 h2
        rw [h.1.1] at h3
        exact Bool.noConfusion h3
    · exact ih h.2 h1

theorem free_empty (P : String) (h : P.data.isEmpty = false) : ¬ occursIn P "" := by
  intro hin
  have h0 : P.data = [] := List.infix_nil.1 hin
  rw [h0] at h
  exact Bool.noConfusion h

theorem free_sep (P a b sep : String) (c : Char) (hs : sep.data = [c])
    (hc : P.data.contains c = false) (ha : ¬ occursIn P a) (hb : ¬ occursIn P b) :
    ¬ occursIn P (a ++ sep ++ b) := by
  have hc1 : c ∉ P.data := by
    intro hmem
    simp [hmem] at hc
  have h := not_infix_sep hc1 ha hb
  simpa [occursIn, String.toList, String.data_append, hs] using h

theorem free_lead (P F x : String) (h : clearOf P.data F.data = true) (hx : ¬ occursIn P x) :
    ¬ occursIn P (F ++ x) := by
  have h1 := not_infix_lead h hx
  simpa [occursIn, String.toList, String.data_append] using h1

theorem free_fixed (P F : String) (hne : P.data.isEmpty = false)
    (h : clearOf P.data F.data = true) : ¬ occursIn P F := by
  have h1 := free_lead P F "" h (free_empty P hne)
  simpa using h1

theorem free_schema_section (P : String) (hP : templateClear P = true) (t : table)
    (rest : String) (hn : ¬ occursIn P t.Name) (hs : ¬ occursIn P t.SQL)
    (hr : ¬ occursIn P rest) : ¬ occursIn P (schemaText t ++ "\t\n" ++ rest) := by
  simp only [templateClear, Bool.and_eq_true, Bool.not_eq_true'] at hP
  obtain ⟨⟨⟨⟨⟨⟨⟨⟨⟨⟨hne, hnl⟩, hsc⟩, _⟩, h2⟩, _⟩, _⟩, h5⟩, h6⟩, h7⟩, _⟩ := hP
  have e : schemaText t ++ "\t\n" ++ rest
      = "" ++ "\n" ++ ("--" ++ "\n" ++ (("-- Table structure for table " ++ t.Name) ++ "\n"
          ++ ("--" ++ "\n" ++ ((("DROP TABLE IF EXISTS " ++ t.Name) ++ ";" ++ "") ++ "\n"
          ++ ((t.SQL ++ ";" ++ "") ++ "\n" ++ ("\t" ++ "\n" ++ rest)))))) := by
    simp only [schemaText]
    apply String.ext
    simp [String.data_append]
  rw [e]
  have hempty := free_empty P hne
  have hdash := free_fixed P "--" hne h2
  refine free_sep P _ _ "\n" '\n' rfl hnl hempty ?_
  refine free_sep P _ _ "\n" '\n' rfl hnl hdash ?_
  refine free_sep P _ _ "\n" '\n' rfl hnl (free_lead P _ _ h5 hn) ?_
  refine free_sep P _ _ "\n" '\n' rfl hnl hdash ?_
  refine free_sep P _ _ "\n" '\n' rfl hnl
    (free_sep P _ _ ";" ';' rfl hsc (free_lead P _ _ h6 hn) hempty) ?_
  refine free_sep P _ _ "\n" '\n' rfl hnl (free_sep P _ _ ";" ';' rfl hsc hs hempty) ?_
  exact free_sep P _ _ "\n" '\n' rfl hnl (free_fixed P "\t" hne h7) hr

theorem free_schema_sections (P : String) (hP : templateClear P = true) (ts : List table)
    (rest : String) (hts : ∀ t ∈ ts, ¬ occursIn P t.Name ∧ ¬ occursIn P t.SQL)
    (hr : ¬ occursIn P rest) :
    ¬ occursIn P (concatAll (ts.map (fun t => schemaText t ++ "\t\n")) ++ rest) := by
  induction ts with
  | nil => simpa [concatAll] using hr
  | cons t ts ih =>
    have h1 := ih (fun x hx => hts x (List.mem_cons_of_mem _ hx))
    have h2 := hts t (List.mem_cons_self _ _)
    have h3 := free_schema_section P hP t _ h2.1 h2.2 h1
    simpa [concatAll, String.append_assoc] using h3

theorem free_schema_document (P : String) (hP : templateClear P = true) (data : dump)
    (hf : fieldsFree P data) :
    ¬ occursIn P (bannerText data.DumpVersion data.ServerVersion
      ++ concatAll (data.Tables.map (fun t => schemaText t ++ "\t\n"))
      ++ footerText data.CompleteTime) := by
  have hsec := free_schema_sections P hP data.Tables
  simp only [templateClear, Bool.and_eq_true, Bool.not_eq_true'] at hP
  obtain ⟨⟨⟨⟨⟨⟨⟨⟨⟨⟨hne, hnl⟩, hsc⟩, h1⟩, h2⟩, h3⟩, h4⟩, _⟩, _⟩, _⟩, h8⟩ := hP
  obtain ⟨hdv, hsv, hct, hts⟩ := hf
  have e : bannerText data.DumpVersion data.ServerVersion
      ++ concatAll (data.Tables.map (fun t => schemaText t ++ "\t\n"))
      ++ footerText data.CompleteTime
      = ("-- Go SQL Dump " ++ data.DumpVersion) ++ "\n" ++ ("--" ++ "\n"
          ++ ("-- ------------------------------------------------------" ++ "\n"
          ++ (("-- Server version  " ++ data.ServerVersion) ++ "\n" ++ ("" ++ "\n"
          ++ (concatAll (data.Tables.map (fun t => schemaText t ++ "\t\n"))
              ++ ("" ++ "\n" ++ (("-- Dump completed on " ++ data.CompleteTime) ++ "\n"
                ++ ""))))))) := by
    simp only [bannerText, footerText]
    apply String.ext
    simp [String.data_append]
  rw [e]
  have hempty := free_empty P hne
  refine free_sep P _ _ "\n" '\n' rfl hnl (free_lead P _ _ h1 hdv) ?_
  refine free_sep P _ _ "\n" '\n' rfl hnl (free_fixed P _ hne h2) ?_
  refine free_sep P _ _ "\n" '\n' rfl hnl (free_fixed P _ hne h3) ?_
  refine free_sep P _ _ "\n" '\n' rfl hnl (free_lead P _ _ h4 hsv) ?_
  refine free_sep P _ _ "\n" '\n' rfl hnl hempty ?_
  refine hsec _ hts ?_
  refine free_sep P _ _ "\n" '\n' rfl hnl hempty ?_
  exact free_sep P _ _ "\n" '\n' rfl hnl (free_lead P _ _ h8 hct) hempty

/-- C10.  The template is chosen by the row-data flag alone: without row
data it is `tmpl` followed by `complete`, with row data it is the same with
`tmplSQLValue` inserted between them.  Without row data, every document is
rendered as the banner, one schema block per table and the footer; no data
block is written for any table, whatever the record holds as values; and
when the strings taken from the database and the clock contain neither
`LOCK TABLES` nor `INSERT INTO`, neither occurs anywhere in the artifact. -/
theorem schema_only_has_no_data_block (d : Dumper) :
    d.genTemplate
        = (if d.withSQLValue then tmpl ++ tmplSQLValue ++ complete else tmpl ++ complete)
      ∧ (d.withSQLValue = false → ∀ data : dump,
          ∃ tm, parse d.genTemplate = Except.ok tm
            ∧ exec tm (Dot.ofDump data)
              = (bannerText data.DumpVersion data.ServerVersion
                  ++ concatAll (data.Tables.map (fun t =>
                      "\n--\n-- Table structure for table " ++ t.Name
                      ++ "\n--\nDROP TABLE IF EXISTS " ++ t.Name ++ ";\n" ++ t.SQL ++ ";\n"
                      ++ "\t\n"))
                  ++ footerText data.CompleteTime, none)
            ∧ ∀ P, P = "LOCK TABLES" ∨ P = "INSERT INTO" → fieldsFree P data →
                ¬ occursIn P (exec tm (Dot.ofDump data)).1) := by
  constructor
  · cases hw : d.withSQLValue <;> simp [Dumper.genTemplate, hw]
  · intro hw data
    have hx := exec_banner schemaBody (fun t => schemaText t ++ "\t\n") exec_schemaBody data
    refine ⟨bannerTmpl schemaBody, ?_, hx, ?_⟩
    · simp only [Dumper.genTemplate, hw]
      exact parse_schemaOnly
    · intro P hP hf
      rw [hx]
      have hclear : templateClear P = true := by
        rcases hP with rfl | rfl <;> decide
      exact free_schema_document P hclear data hf

theorem schema_only_has_no_data_block_witness :
    ∃ tm, parse (Dumper.genTemplate ⟨failingDB, "Monday", "/backup", false⟩) = Except.ok tm
      ∧ ¬ occursIn "LOCK TABLES"
          (exec tm (Dot.ofDump ⟨version, "8.0.36",
            [⟨"users", "CREATE TABLE users (id INT)", "('1')"⟩], "Monday noon", false⟩)).1 := by
  obtain ⟨tm, hp, _, hfree⟩ :=
    (schema_only_has_no_data_block ⟨failingDB, "Monday", "/backup", false⟩).2 rfl
      ⟨version, "8.0.36", [⟨"users", "CREATE TABLE users (id INT)", "('1')"⟩], "Monday noon",
        false⟩
  refine ⟨tm, hp, hfree "LOCK TABLES" (Or.inl rfl) ⟨by decide, by decide, by decide, ?_⟩⟩
  intro t ht
  simp only [List.mem_singleton] at ht
  subst ht
  exact ⟨by decide, by decide⟩

end Mysqldump
